import Mathlib

/- Verification of the TypeScript-to-Rust compiler pipeline
   (lexer.rs, parser.rs, types.rs, generator.rs): a shallow embedding of the
   source, with theorems about the lexer's token stream, the parser's
   tolerant top-level loop, the type mapper and the code generator.

   Modelling conventions:
   * Rust `String` input is a `List Char` (Unicode scalar values, as Rust
     `chars()` yields them); `input.len()` (a BYTE count in Rust) is
     modelled by `byteLen`, the UTF-8 byte count of the character list.
   * Rust `f64` literal payloads are kept as their decimal source text /
     `Display` rendering (a `String`); no claim below depends on float
     arithmetic.
   * `Result<T, CompilerError>` is `Except CompilerError T`.
   * Loops become recursive functions, each recursing on the measure the
     Rust loop decreases (bytes remaining after the cursor, or the explicit
     iteration budget of the parser loop). -/

set_option maxHeartbeats 1600000
set_option linter.unusedVariables false
set_option linter.unreachableTactic false
set_option linter.unnecessarySeqFocus false
set_option linter.unusedTactic false

/-! ## String helpers mirroring the Rust std methods used by the source -/

/-- UTF-8 byte width of one Unicode scalar value (Rust `char::len_utf8`). -/
def charSize (c : Char) : Nat :=
  if c.toNat < 0x80 then 1 else if c.toNat < 0x800 then 2
  else if c.toNat < 0x10000 then 3 else 4

/-- UTF-8 byte length of a character list (Rust `String::len`). -/
def byteLen (l : List Char) : Nat := l.foldl (fun a c => a + charSize c) 0

/-- Rust `str::contains(pat)` for the non-empty literal patterns the
generator uses. -/
def scontains (s pat : String) : Bool :=
  if pat.isEmpty then true else (s.splitOn pat).length != 1

/-- Rust `s.split(pat).next().unwrap()`: the text before the first
occurrence of `pat` (all of `s` when `pat` does not occur). -/
def splitFirst (s pat : String) : String := (s.splitOn pat).headD s

/-- Rust `str::starts_with(pat)`. -/
def sstarts (s pat : String) : Bool := pat.isPrefixOf s

/-- The text of `s` after the first occurrence of `pat`, when `pat`
occurs (Rust `&code[start + pat.len()..]` after a successful `find`). -/
def afterFirst (s pat : String) : Option String :=
  match s.splitOn pat with
  | [] => none
  | [_] => none
  | _ :: rest => some (String.intercalate pat rest)

/-- Rust `char::is_whitespace` (Unicode `White_Space`). -/
def rustIsWhitespace (c : Char) : Bool :=
  let n := c.toNat
  (0x09 ≤ n && n ≤ 0x0D) || n == 0x20 || n == 0x85 || n == 0xA0 ||
  n == 0x1680 || (0x2000 ≤ n && n ≤ 0x200A) || n == 0x2028 ||
  n == 0x2029 || n == 0x202F || n == 0x205F || n == 0x3000

/-! ## Tokens and keywords (lexer.rs, `enum Token` / `enum Keyword`) -/

/-- lexer.rs `enum Keyword`. -/
inductive Keyword where
  | kLet | kConst | kVar | kFunction | kClass | kInterface | kType | kEnum
  | kNamespace | kModule | kImport | kExport | kFrom | kAs | kDefault
  | kIf | kElse | kSwitch | kCase | kDefaultCase | kFor | kWhile | kDo
  | kBreak | kContinue | kReturn | kThrow | kTry | kCatch | kFinally
  | kExtends | kImplements | kSuper | kThis | kNew | kStatic | kPublic
  | kPrivate | kProtected | kAbstract | kReadonly
  | kAsync | kAwait | kPromise
  | kAny | kUnknown | kNever | kVoid | kNull | kUndefined | kBoolean
  | kNumber | kString | kObject | kArray | kTuple | kUnion | kIntersection
  | kLiteral | kMapped | kConditional | kTemplate
  | kPartialU | kRequired | kPick | kOmit | kRecord | kExclude | kExtract
  | kNonNullable | kParameters | kReturnType | kInstanceType
  | kThisParameterType | kOmitThisParameter | kThisType
  | kTrue | kFalse | kIn | kOf | kInstanceof | kTypeof | kKeyof | kKey
  | kIs | kAsserts | kInfer | kDeclare | kAmbient | kGlobal
deriving DecidableEq

/-- lexer.rs `enum Token`.  `Number` carries the decimal text standing for
the Rust `f64` payload (see the modelling conventions above). -/
inductive Token where
  | number (n : String)
  | string (s : String)
  | templateLiteral (s : String)
  | boolean (b : Bool)
  | null
  | undefined
  | identifier (name : String)
  | keyword (k : Keyword)
  | plus | minus | multiply | divide | modulo
  | equal | notEqual | strictEqual | strictNotEqual
  | lessThan | greaterThan | lessEqual | greaterEqual
  | and | or | not
  | assign | plusAssign | minusAssign | multiplyAssign | divideAssign
  | union | intersection
  | leftParen | rightParen | leftBrace | rightBrace
  | leftBracket | rightBracket
  | semicolon | comma | dot | colon | questionMark | arrow
  | typeAnnot | genericStart | genericEnd
  | newline | whitespace
  | comment (s : String)
  | eof
deriving DecidableEq

/-! ## Errors (error.rs `enum CompilerError`; the `Io` variant carries the
propagated message text) -/

/-- error.rs `CompilerError`. -/
inductive CompilerError where
  | ioError (message : String)
  | parseError (line : Nat) (column : Nat) (message : String)
  | typeError (message : String)
  | semanticError (message : String)
  | generationError (message : String)
  | unsupportedFeature (feature : String)
  | internalError (message : String)
deriving DecidableEq

/-! ## Lexer (lexer.rs `struct Lexer` and its methods)

The `input` field never changes after `Lexer::new`, so it is a fixed
parameter of every function; the mutable cursor fields form `LexerState`. -/

/-- The mutable part of lexer.rs `struct Lexer`. -/
structure LexerState where
  position : Nat
  line : Nat
  column : Nat
deriving DecidableEq

/-- `Lexer::new`: cursor at 0, line 1, column 1. -/
def lexerNew : LexerState := ⟨0, 1, 1⟩

/-- `Lexer::current_char`: `input.chars().nth(position).unwrap_or('\0')`. -/
def currentChar (input : List Char) (s : LexerState) : Char :=
  (input.get? s.position).getD '\x00'

/-- `Lexer::peek_char`: `input.chars().nth(position + 1)`. -/
def peekChar (input : List Char) (s : LexerState) : Option Char :=
  input.get? (s.position + 1)

/-- `Lexer::advance`: step the cursor, tracking line/column. -/
def advanceLex (input : List Char) (s : LexerState) : LexerState :=
  if currentChar input s = '\n' then
    { s with line := s.line + 1, column := 1, position := s.position + 1 }
  else
    { s with column := s.column + 1, position := s.position + 1 }

theorem advanceLex_position (input : List Char) (s : LexerState) :
    (advanceLex input s).position = s.position + 1 := by
  unfold advanceLex; split <;> rfl

/-- The loop of `Lexer::skip_line_comment` (also inlined in
`skip_whitespace`): advance while the cursor is in bounds and not at a
newline. -/
def skipToNewline (input : List Char) (s : LexerState) : LexerState :=
  if s.position < byteLen input ∧ currentChar input s ≠ '\n' then
    skipToNewline input (advanceLex input s)
  else s
termination_by byteLen input - s.position
decreasing_by simp [advanceLex_position]; omega

theorem skipToNewline_ge (input : List Char) (s : LexerState) :
    s.position ≤ (skipToNewline input s).position := by
  induction s using skipToNewline.induct input with
  | case1 s h ih =>
    rw [skipToNewline]; simp only [if_pos h]
    have := advanceLex_position input s; omega
  | case2 s h => rw [skipToNewline]; simp only [if_neg h]; omega

/-- The loop of `Lexer::skip_block_comment` (also inlined in
`skip_whitespace`): advance to just past the first `*/`, or to the end of
input. -/
def skipBlockComment (input : List Char) (s : LexerState) : LexerState :=
  if s.position < byteLen input then
    if currentChar input s = '*' ∧ peekChar input s = some '/' then
      advanceLex input (advanceLex input s)
    else
      skipBlockComment input (advanceLex input s)
  else s
termination_by byteLen input - s.position
decreasing_by simp [advanceLex_position]; omega

theorem skipBlockComment_ge (input : List Char) (s : LexerState) :
    s.position ≤ (skipBlockComment input s).position := by
  induction s using skipBlockComment.induct input with
  | case1 s h1 h2 =>
    rw [skipBlockComment]; simp only [if_pos h1, if_pos h2]
    have := advanceLex_position input s
    have := advanceLex_position input (advanceLex input s); omega
  | case2 s h1 h2 ih =>
    rw [skipBlockComment]; simp only [if_pos h1, if_neg h2]
    have := advanceLex_position input s; omega
  | case3 s h1 => rw [skipBlockComment]; simp only [if_neg h1]; omega

/-- `Lexer::skip_whitespace`: skip whitespace and both comment forms
before a token (the Rust body binds `let ch = self.current_char()`;
inlined here). -/
def skipWhitespace (input : List Char) (s : LexerState) : LexerState :=
  if s.position < byteLen input then
    if rustIsWhitespace (currentChar input s) then
      skipWhitespace input (advanceLex input s)
    else if currentChar input s = '/' ∧ peekChar input s = some '/' then
      skipWhitespace input
        (skipToNewline input (advanceLex input (advanceLex input s)))
    else if currentChar input s = '/' ∧ peekChar input s = some '*' then
      skipWhitespace input
        (skipBlockComment input (advanceLex input (advanceLex input s)))
    else s
  else s
termination_by byteLen input - s.position
decreasing_by
  · simp [advanceLex_position]; omega
  · have h1 := skipToNewline_ge input (advanceLex input (advanceLex input s))
    have h2 := advanceLex_position input s
    have h3 := advanceLex_position input (advanceLex input s)
    omega
  · have h1 := skipBlockComment_ge input (advanceLex input (advanceLex input s))
    have h2 := advanceLex_position input s
    have h3 := advanceLex_position input (advanceLex input s)
    omega

theorem skipWhitespace_ge (input : List Char) (s : LexerState) :
    s.position ≤ (skipWhitespace input s).position := by
  induction s using skipWhitespace.induct input with
  | case1 s h hws ih =>
    rw [skipWhitespace]; simp only [if_pos h, if_pos hws]
    have := advanceLex_position input s; omega
  | case2 s h hws hsl ih =>
    rw [skipWhitespace]; simp only [if_pos h, if_neg hws, if_pos hsl]
    have h1 := skipToNewline_ge input (advanceLex input (advanceLex input s))
    have h2 := advanceLex_position input s
    have h3 := advanceLex_position input (advanceLex input s)
    omega
  | case3 s h hws hsl hsb ih =>
    rw [skipWhitespace]; simp only [if_pos h, if_neg hws, if_neg hsl, if_pos hsb]
    have h1 := skipBlockComment_ge input (advanceLex input (advanceLex input s))
    have h2 := advanceLex_position input s
    have h3 := advanceLex_position input (advanceLex input s)
    omega
  | case4 s h hws hsl hsb =>
    rw [skipWhitespace]
    simp only [if_pos h, if_neg hws, if_neg hsl, if_neg hsb]; omega
  | case5 s h => rw [skipWhitespace]; simp only [if_neg h]; omega

/-- Rust character classes, phrased on scalar values so `omega` can relate
them: `is_ascii_alphanumeric || '_' || '$'` (the identifier-continue test of
`parse_identifier_or_keyword`). -/
def isIdentChar (c : Char) : Bool :=
  (48 ≤ c.toNat && c.toNat ≤ 57) || (65 ≤ c.toNat && c.toNat ≤ 90) ||
  (97 ≤ c.toNat && c.toNat ≤ 122) || c.toNat == 95 || c.toNat == 36

/-- The `'a'..='z' | 'A'..='Z' | '_' | '$'` match arms of `next_token`. -/
def isIdentStartChar (c : Char) : Bool :=
  (65 ≤ c.toNat && c.toNat ≤ 90) || (97 ≤ c.toNat && c.toNat ≤ 122) ||
  c.toNat == 95 || c.toNat == 36

/-- The `'0'..='9'` match arms of `next_token` (Rust `is_ascii_digit`). -/
def isDigitChar (c : Char) : Bool := 48 ≤ c.toNat && c.toNat ≤ 57

/-- The escape map of `Lexer::parse_string`. -/
def stringEscape (c : Char) : Char :=
  if c = 'n' then '\n' else if c = 't' then '\t' else if c = 'r' then '\r'
  else if c = '\\' then '\\' else if c = '"' then '"'
  else if c = '\'' then '\'' else c

/-- The escape map of `Lexer::parse_template_literal` (backtick is
`'\x60'`, dollar `'$'`). -/
def templateEscape (c : Char) : Char :=
  if c = 'n' then '\n' else if c = 't' then '\t' else if c = 'r' then '\r'
  else if c = '\\' then '\\' else if c = '\x60' then '\x60'
  else if c = '$' then '$' else c

/-- The scan loop of `Lexer::parse_string` (after the opening quote was
consumed). -/
def parseStringLoop (input : List Char) (quote : Char) (value : String)
    (s : LexerState) : Except CompilerError (Option Token × LexerState) :=
  if s.position < byteLen input then
    if currentChar input s = quote then
      .ok (some (.string value), advanceLex input s)
    else if currentChar input s = '\\' then
      if (advanceLex input s).position < byteLen input then
        parseStringLoop input quote
          (value.push (stringEscape (currentChar input (advanceLex input s))))
          (advanceLex input (advanceLex input s))
      else
        parseStringLoop input quote value (advanceLex input s)
    else
      parseStringLoop input quote (value.push (currentChar input s))
        (advanceLex input s)
  else
    .error (.parseError s.line s.column "Unterminated string literal")
termination_by byteLen input - s.position
decreasing_by all_goals simp [advanceLex_position]; omega

/-- `Lexer::parse_string`: record the quote, consume it, scan. -/
def parseString (input : List Char) (s : LexerState) :
    Except CompilerError (Option Token × LexerState) :=
  parseStringLoop input (currentChar input s) "" (advanceLex input s)

theorem parseStringLoop_ok (input : List Char) (quote : Char)
    (value : String) (s : LexerState) :
    ∀ t s2, parseStringLoop input quote value s = .ok (t, s2) →
      s.position < s2.position ∧ ∃ w, t = some (Token.string w) := by
  induction value, s using parseStringLoop.induct input quote with
  | case1 value s h1 h2 =>
    intro t s2 h
    rw [parseStringLoop] at h; simp only [if_pos h1, if_pos h2] at h
    simp only [Except.ok.injEq, Prod.mk.injEq] at h
    obtain ⟨h3, h4⟩ := h
    subst h4
    exact ⟨by have := advanceLex_position input s; omega, ⟨value, h3.symm⟩⟩
  | case2 value s h1 h2 h3 h4 ih =>
    intro t s2 h
    rw [parseStringLoop] at h
    simp only [if_pos h1, if_neg h2, if_pos h3] at h
    simp only [if_pos h4] at h
    have := ih t s2 h
    have a1 := advanceLex_position input s
    have a2 := advanceLex_position input (advanceLex input s)
    exact ⟨by omega, this.2⟩
  | case3 value s h1 h2 h3 h4 ih =>
    intro t s2 h
    rw [parseStringLoop] at h
    simp only [if_pos h1, if_neg h2, if_pos h3] at h
    simp only [if_neg h4] at h
    have := ih t s2 h
    have a1 := advanceLex_position input s
    exact ⟨by omega, this.2⟩
  | case4 value s h1 h2 h3 ih =>
    intro t s2 h
    rw [parseStringLoop] at h
    simp only [if_pos h1, if_neg h2, if_neg h3] at h
    have := ih t s2 h
    have a1 := advanceLex_position input s
    exact ⟨by omega, this.2⟩
  | case5 value s h1 =>
    intro t s2 h
    rw [parseStringLoop] at h; simp only [if_neg h1] at h
    exact absurd h (by simp)

/-- The `${...}` scan-to-closing-brace loop inside
`Lexer::parse_template_literal`. -/
def interpLoop (input : List Char) (value : String) (s : LexerState) :
    String × LexerState :=
  if s.position < byteLen input ∧ currentChar input s ≠ '\x7d' then
    interpLoop input (value.push (currentChar input s)) (advanceLex input s)
  else (value, s)
termination_by byteLen input - s.position
decreasing_by simp [advanceLex_position]; omega

theorem interpLoop_ge (input : List Char) (value : String) (s : LexerState) :
    s.position ≤ (interpLoop input value s).2.position := by
  induction value, s using interpLoop.induct input with
  | case1 value s h ih =>
    rw [interpLoop]; simp only [if_pos h]
    have := advanceLex_position input s; omega
  | case2 value s h => rw [interpLoop]; simp only [if_neg h]; omega

/-- The scan loop of `Lexer::parse_template_literal` (after the opening
backtick was consumed).  `'\x60'` is the backtick, `'\x7b'`/`'\x7d'` the
braces.  The `${...}` arm pushes `$` and `{`, advances over both, copies up
to the closing brace (`interpLoop`), then consumes that brace when the
cursor is still in bounds. -/
def parseTemplateLoop (input : List Char) (value : String) (s : LexerState) :
    Except CompilerError (Option Token × LexerState) :=
  if s.position < byteLen input then
    if currentChar input s = '\x60' then
      .ok (some (.templateLiteral value), advanceLex input s)
    else if currentChar input s = '\\' then
      if (advanceLex input s).position < byteLen input then
        parseTemplateLoop input
          (value.push (templateEscape (currentChar input (advanceLex input s))))
          (advanceLex input (advanceLex input s))
      else
        parseTemplateLoop input value (advanceLex input s)
    else if currentChar input s = '$' ∧ s.position + 1 < byteLen input ∧
        input.get? (s.position + 1) = some '\x7b' then
      if (advanceLex input s).position < byteLen input then
        if (interpLoop input ((value.push '$').push '\x7b')
              (advanceLex input (advanceLex input s))).2.position <
            byteLen input then
          parseTemplateLoop input
            ((interpLoop input ((value.push '$').push '\x7b')
                (advanceLex input (advanceLex input s))).1.push '\x7d')
            (advanceLex input
              (interpLoop input ((value.push '$').push '\x7b')
                (advanceLex input (advanceLex input s))).2)
        else
          parseTemplateLoop input
            (interpLoop input ((value.push '$').push '\x7b')
              (advanceLex input (advanceLex input s))).1
            (interpLoop input ((value.push '$').push '\x7b')
              (advanceLex input (advanceLex input s))).2
      else
        parseTemplateLoop input (value.push '$') (advanceLex input s)
    else
      parseTemplateLoop input (value.push (currentChar input s))
        (advanceLex input s)
  else
    .error (.parseError s.line s.column "Unterminated template literal")
termination_by byteLen input - s.position
decreasing_by
  all_goals
    first
    | (simp [advanceLex_position]; omega)
    | (have hi := interpLoop_ge input ((value.push '$').push '\x7b')
          (advanceLex input (advanceLex input s))
       have a1 := advanceLex_position input s
       have a2 := advanceLex_position input (advanceLex input s)
       have a3 := advanceLex_position input
          (interpLoop input ((value.push '$').push '\x7b')
            (advanceLex input (advanceLex input s))).2
       omega)

theorem parseTemplateLoop_ok (input : List Char) (value : String)
    (s : LexerState) :
    ∀ t s2, parseTemplateLoop input value s = .ok (t, s2) →
      s.position < s2.position ∧ ∃ w, t = some (Token.templateLiteral w) := by
  induction value, s using parseTemplateLoop.induct input with
  | case1 value s h1 h2 =>
    intro t s2 h
    rw [parseTemplateLoop] at h; simp only [if_pos h1, if_pos h2] at h
    simp only [Except.ok.injEq, Prod.mk.injEq] at h
    obtain ⟨h3, h4⟩ := h
    subst h4
    exact ⟨by have := advanceLex_position input s; omega, ⟨value, h3.symm⟩⟩
  | case2 value s h1 h2 h3 h4 ih =>
    intro t s2 h
    rw [parseTemplateLoop] at h
    simp only [if_pos h1, if_neg h2, if_pos h3, if_pos h4] at h
    have := ih t s2 h
    have a1 := advanceLex_position input s
    have a2 := advanceLex_position input (advanceLex input s)
    exact ⟨by omega, this.2⟩
  | case3 value s h1 h2 h3 h4 ih =>
    intro t s2 h
    rw [parseTemplateLoop] at h
    simp only [if_pos h1, if_neg h2, if_pos h3, if_neg h4] at h
    have := ih t s2 h
    have a1 := advanceLex_position input s
    exact ⟨by omega, this.2⟩
  | case4 value s h1 h2 h3 h5 h6 h7 ih =>
    intro t s2 h
    rw [parseTemplateLoop] at h
    simp only [if_pos h1, if_neg h2, if_neg h3, if_pos h5, if_pos h6,
      if_pos h7] at h
    have := ih t s2 h
    have hi := interpLoop_ge input ((value.push '$').push '\x7b')
      (advanceLex input (advanceLex input s))
    have a1 := advanceLex_position input s
    have a2 := advanceLex_position input (advanceLex input s)
    have a3 := advanceLex_position input
      (interpLoop input ((value.push '$').push '\x7b')
        (advanceLex input (advanceLex input s))).2
    exact ⟨by omega, this.2⟩
  | case5 value s h1 h2 h3 h5 h6 h7 ih =>
    intro t s2 h
    rw [parseTemplateLoop] at h
    simp only [if_pos h1, if_neg h2, if_neg h3, if_pos h5, if_pos h6,
      if_neg h7] at h
    have := ih t s2 h
    have hi := interpLoop_ge input ((value.push '$').push '\x7b')
      (advanceLex input (advanceLex input s))
    have a1 := advanceLex_position input s
    have a2 := advanceLex_position input (advanceLex input s)
    exact ⟨by omega, this.2⟩
  | case6 value s h1 h2 h3 h5 h6 ih =>
    intro t s2 h
    rw [parseTemplateLoop] at h
    simp only [if_pos h1, if_neg h2, if_neg h3, if_pos h5, if_neg h6] at h
    have := ih t s2 h
    have a1 := advanceLex_position input s
    exact ⟨by omega, this.2⟩
  | case7 value s h1 h2 h3 h5 ih =>
    intro t s2 h
    rw [parseTemplateLoop] at h
    simp only [if_pos h1, if_neg h2, if_neg h3, if_neg h5] at h
    have := ih t s2 h
    have a1 := advanceLex_position input s
    exact ⟨by omega, this.2⟩
  | case8 value s h1 =>
    intro t s2 h
    rw [parseTemplateLoop] at h; simp only [if_neg h1] at h
    exact absurd h (by simp)

/-- `Lexer::parse_template_literal`: consume the opening backtick, scan. -/
def parseTemplateLiteral (input : List Char) (s : LexerState) :
    Except CompilerError (Option Token × LexerState) :=
  parseTemplateLoop input "" (advanceLex input s)

/-- The digit/decimal-point collection loop of `Lexer::parse_number`. -/
def parseNumberLoop (input : List Char) (value : String) (hasDot : Bool)
    (s : LexerState) : String × LexerState :=
  if s.position < byteLen input then
    if (currentChar input s).isDigit then
      parseNumberLoop input (value.push (currentChar input s)) hasDot
        (advanceLex input s)
    else if currentChar input s = '.' ∧ hasDot = false then
      parseNumberLoop input (value.push '.') true (advanceLex input s)
    else (value, s)
  else (value, s)
termination_by byteLen input - s.position
decreasing_by all_goals simp [advanceLex_position]; omega

theorem parseNumberLoop_ge (input : List Char) (value : String)
    (hasDot : Bool) (s : LexerState) :
    s.position ≤ (parseNumberLoop input value hasDot s).2.position := by
  induction value, hasDot, s using parseNumberLoop.induct input with
  | case1 value hasDot s h1 h2 ih =>
    rw [parseNumberLoop]; simp only [if_pos h1, if_pos h2]
    have := advanceLex_position input s; omega
  | case2 value hasDot s h1 h2 h3 ih =>
    rw [parseNumberLoop]; simp only [if_pos h1, if_neg h2, if_pos h3]
    have := advanceLex_position input s; omega
  | case3 value hasDot s h1 h2 h3 =>
    rw [parseNumberLoop]; simp only [if_pos h1, if_neg h2, if_neg h3]; omega
  | case4 value hasDot s h1 =>
    rw [parseNumberLoop]; simp only [if_neg h1]; omega

/-- Whether Rust `value.parse::<f64>()` succeeds, for texts over the
digit/decimal-point alphabet the number loop produces: at least one digit,
no character besides digits and `.`, and at most one `.`. -/
def f64ParseOk (v : String) : Bool :=
  v.toList.any (fun c => c.isDigit) &&
  v.toList.all (fun c => c.isDigit || c = '.') &&
  v.toList.count '.' ≤ 1

/-- `Lexer::parse_number`. -/
def parseNumber (input : List Char) (s : LexerState) :
    Except CompilerError (Option Token × LexerState) :=
  if f64ParseOk (parseNumberLoop input "" false s).1 then
    .ok (some (.number (parseNumberLoop input "" false s).1),
      (parseNumberLoop input "" false s).2)
  else
    .error (.parseError (parseNumberLoop input "" false s).2.line
      (parseNumberLoop input "" false s).2.column "Invalid number literal")

theorem parseNumber_ok (input : List Char) (s : LexerState)
    (hin : s.position < byteLen input)
    (hc : (currentChar input s).isDigit = true) :
    ∀ t s2, parseNumber input s = .ok (t, s2) →
      s.position < s2.position ∧ ∃ w, t = some (Token.number w) := by
  intro t s2 h
  unfold parseNumber at h
  split at h
  · simp only [Except.ok.injEq, Prod.mk.injEq] at h
    obtain ⟨h3, h4⟩ := h
    subst h4
    constructor
    · rw [parseNumberLoop]; simp only [if_pos hin, if_pos hc]
      have := parseNumberLoop_ge input ("".push (currentChar input s)) false
        (advanceLex input s)
      have := advanceLex_position input s
      omega
    · exact ⟨_, h3.symm⟩
  · exact absurd h (by simp)

/-- `Lexer::parse_keyword`: the fixed keyword table. -/
def parseKeywordStr (value : String) : Option Keyword :=
  if value = "let" then some .kLet
  else if value = "const" then some .kConst
  else if value = "var" then some .kVar
  else if value = "function" then some .kFunction
  else if value = "class" then some .kClass
  else if value = "interface" then some .kInterface
  else if value = "type" then some .kType
  else if value = "enum" then some .kEnum
  else if value = "namespace" then some .kNamespace
  else if value = "module" then some .kModule
  else if value = "import" then some .kImport
  else if value = "export" then some .kExport
  else if value = "from" then some .kFrom
  else if value = "as" then some .kAs
  else if value = "default" then some .kDefault
  else if value = "if" then some .kIf
  else if value = "else" then some .kElse
  else if value = "switch" then some .kSwitch
  else if value = "case" then some .kCase
  else if value = "for" then some .kFor
  else if value = "while" then some .kWhile
  else if value = "do" then some .kDo
  else if value = "break" then some .kBreak
  else if value = "continue" then some .kContinue
  else if value = "return" then some .kReturn
  else if value = "throw" then some .kThrow
  else if value = "try" then some .kTry
  else if value = "catch" then some .kCatch
  else if value = "finally" then some .kFinally
  else if value = "extends" then some .kExtends
  else if value = "implements" then some .kImplements
  else if value = "super" then some .kSuper
  else if value = "this" then some .kThis
  else if value = "new" then some .kNew
  else if value = "static" then some .kStatic
  else if value = "public" then some .kPublic
  else if value = "private" then some .kPrivate
  else if value = "protected" then some .kProtected
  else if value = "abstract" then some .kAbstract
  else if value = "readonly" then some .kReadonly
  else if value = "async" then some .kAsync
  else if value = "await" then some .kAwait
  else if value = "Promise" then some .kPromise
  else if value = "any" then some .kAny
  else if value = "unknown" then some .kUnknown
  else if value = "never" then some .kNever
  else if value = "void" then some .kVoid
  else if value = "null" then some .kNull
  else if value = "undefined" then some .kUndefined
  else if value = "boolean" then some .kBoolean
  else if value = "number" then some .kNumber
  else if value = "string" then some .kString
  else if value = "object" then some .kObject
  else if value = "Array" then some .kArray
  else if value = "true" then some .kTrue
  else if value = "false" then some .kFalse
  else if value = "in" then some .kIn
  else if value = "of" then some .kOf
  else if value = "instanceof" then some .kInstanceof
  else if value = "typeof" then some .kTypeof
  else if value = "keyof" then some .kKeyof
  else if value = "key" then some .kKey
  else if value = "is" then some .kIs
  else if value = "asserts" then some .kAsserts
  else if value = "infer" then some .kInfer
  else if value = "declare" then some .kDeclare
  else if value = "global" then some .kGlobal
  else none

/-- The collection loop of `Lexer::parse_identifier_or_keyword`. -/
def parseIdentLoop (input : List Char) (value : String) (s : LexerState) :
    String × LexerState :=
  if s.position < byteLen input then
    if isIdentChar (currentChar input s) then
      parseIdentLoop input (value.push (currentChar input s))
        (advanceLex input s)
    else (value, s)
  else (value, s)
termination_by byteLen input - s.position
decreasing_by simp [advanceLex_position]; omega

theorem parseIdentLoop_ge (input : List Char) (value : String)
    (s : LexerState) :
    s.position ≤ (parseIdentLoop input value s).2.position := by
  induction value, s using parseIdentLoop.induct input with
  | case1 value s h1 h2 ih =>
    rw [parseIdentLoop]; simp only [if_pos h1, if_pos h2]
    have := advanceLex_position input s; omega
  | case2 value s h1 h2 =>
    rw [parseIdentLoop]; simp only [if_pos h1, if_neg h2]; omega
  | case3 value s h1 => rw [parseIdentLoop]; simp only [if_neg h1]; omega

/-- `Lexer::parse_identifier_or_keyword`: collect, then classify the text
(boolean literals first, then the keyword table, else an identifier). -/
def parseIdentifierOrKeyword (input : List Char) (s : LexerState) :
    Except CompilerError (Option Token × LexerState) :=
  if (parseIdentLoop input "" s).1 = "true" then
    .ok (some (.boolean true), (parseIdentLoop input "" s).2)
  else if (parseIdentLoop input "" s).1 = "false" then
    .ok (some (.boolean false), (parseIdentLoop input "" s).2)
  else
    match parseKeywordStr (parseIdentLoop input "" s).1 with
    | some k => .ok (some (.keyword k), (parseIdentLoop input "" s).2)
    | none => .ok (some (.identifier (parseIdentLoop input "" s).1),
        (parseIdentLoop input "" s).2)

theorem identStart_identChar (c : Char) (h : isIdentStartChar c = true) :
    isIdentChar c = true := by
  simp only [isIdentStartChar, isIdentChar, Bool.or_eq_true, Bool.and_eq_true,
    decide_eq_true_eq, beq_iff_eq] at h ⊢
  omega

theorem parseIdentifierOrKeyword_ok (input : List Char) (s : LexerState)
    (hin : s.position < byteLen input)
    (hc : isIdentStartChar (currentChar input s) = true) :
    ∀ t s2, parseIdentifierOrKeyword input s = .ok (t, s2) →
      s.position < s2.position ∧ ∀ x, t = some x → x ≠ Token.eof := by
  intro t s2 h
  have hstrict : s.position < (parseIdentLoop input "" s).2.position := by
    rw [parseIdentLoop]
    simp only [if_pos hin, if_pos (identStart_identChar _ hc)]
    have g := parseIdentLoop_ge input ("".push (currentChar input s))
      (advanceLex input s)
    have a := advanceLex_position input s
    omega
  unfold parseIdentifierOrKeyword at h
  split at h
  · simp only [Except.ok.injEq, Prod.mk.injEq] at h
    obtain ⟨h5, h6⟩ := h
    subst h6; subst h5
    exact ⟨hstrict, by intro x hx; injection hx with hx2; subst hx2; decide⟩
  · split at h
    · simp only [Except.ok.injEq, Prod.mk.injEq] at h
      obtain ⟨h5, h6⟩ := h
      subst h6; subst h5
      exact ⟨hstrict, by intro x hx; injection hx with hx2; subst hx2; decide⟩
    · split at h
      · simp only [Except.ok.injEq, Prod.mk.injEq] at h
        obtain ⟨h5, h6⟩ := h
        subst h6; subst h5
        exact ⟨hstrict, by intro x hx; injection hx with hx2; subst hx2; simp⟩
      · simp only [Except.ok.injEq, Prod.mk.injEq] at h
        obtain ⟨h5, h6⟩ := h
        subst h6; subst h5
        exact ⟨hstrict, by intro x hx; injection hx with hx2; subst hx2; simp⟩

/-- The big `match ch` of `Lexer::next_token` that computes the token (the
error arm returns early in Rust, so it is an `.error` leaf here).  The
backtick character is written `'\x60'`. -/
def nextTokenArms (input : List Char) (s : LexerState) :
    Except CompilerError (Option Token × LexerState) :=
  if currentChar input s = '+' then
    if peekChar input s = some '=' then .ok (some .plusAssign, advanceLex input s)
    else if peekChar input s = some '+' then .ok (some .plus, advanceLex input s)
    else .ok (some .plus, s)
  else if currentChar input s = '-' then
    if peekChar input s = some '=' then .ok (some .minusAssign, advanceLex input s)
    else if peekChar input s = some '>' then .ok (some .arrow, advanceLex input s)
    else .ok (some .minus, s)
  else if currentChar input s = '*' then
    if peekChar input s = some '=' then .ok (some .multiplyAssign, advanceLex input s)
    else .ok (some .multiply, s)
  else if currentChar input s = '/' then
    if peekChar input s = some '=' then .ok (some .divideAssign, advanceLex input s)
    else if peekChar input s = some '/' then
      .ok (none, skipToNewline input (advanceLex input s))
    else if peekChar input s = some '*' then
      .ok (none, skipBlockComment input (advanceLex input s))
    else .ok (some .divide, s)
  else if currentChar input s = '%' then .ok (some .modulo, s)
  else if currentChar input s = '=' then
    if peekChar input s = some '=' then
      if peekChar input (advanceLex input s) = some '=' then
        .ok (some .strictEqual, advanceLex input (advanceLex input s))
      else .ok (some .equal, advanceLex input s)
    else .ok (some .assign, s)
  else if currentChar input s = '!' then
    if peekChar input s = some '=' then
      if peekChar input (advanceLex input s) = some '=' then
        .ok (some .strictNotEqual, advanceLex input (advanceLex input s))
      else .ok (some .notEqual, advanceLex input s)
    else .ok (some .not, s)
  else if currentChar input s = '<' then
    if peekChar input s = some '=' then .ok (some .lessEqual, advanceLex input s)
    else .ok (some .lessThan, s)
  else if currentChar input s = '>' then
    if peekChar input s = some '=' then .ok (some .greaterEqual, advanceLex input s)
    else .ok (some .greaterThan, s)
  else if currentChar input s = '&' then
    if peekChar input s = some '&' then .ok (some .and, advanceLex input s)
    else .ok (some .intersection, s)
  else if currentChar input s = '|' then
    if peekChar input s = some '|' then .ok (some .or, advanceLex input s)
    else .ok (some .union, s)
  else if currentChar input s = '(' then .ok (some .leftParen, s)
  else if currentChar input s = ')' then .ok (some .rightParen, s)
  else if currentChar input s = '\x7b' then .ok (some .leftBrace, s)
  else if currentChar input s = '\x7d' then .ok (some .rightBrace, s)
  else if currentChar input s = '[' then .ok (some .leftBracket, s)
  else if currentChar input s = ']' then .ok (some .rightBracket, s)
  else if currentChar input s = ';' then .ok (some .semicolon, s)
  else if currentChar input s = ',' then .ok (some .comma, s)
  else if currentChar input s = '.' then .ok (some .dot, s)
  else if currentChar input s = ':' then .ok (some .colon, s)
  else if currentChar input s = '?' then .ok (some .questionMark, s)
  else if currentChar input s = '"' ∨ currentChar input s = '\'' then
    parseString input s
  else if currentChar input s = '\x60' then
    parseTemplateLiteral input s
  else if (currentChar input s).isDigit then
    parseNumber input s
  else if isIdentStartChar (currentChar input s) then
    parseIdentifierOrKeyword input s
  else
    .error (.parseError s.line s.column
      ("Unexpected character: ".push (currentChar input s)))

/-- `Lexer::next_token`: skip whitespace/comments, dispatch on the current
character, then advance once more for the token classes that do not manage
the cursor themselves (Rust's second `match ch`). -/
def nextToken (input : List Char) (s0 : LexerState) :
    Except CompilerError (Option Token × LexerState) :=
  if (skipWhitespace input s0).position < byteLen input then
    match nextTokenArms input (skipWhitespace input s0) with
    | .error e => .error e
    | .ok (tok, s1) =>
      if isIdentStartChar (currentChar input (skipWhitespace input s0)) ∨
          (currentChar input (skipWhitespace input s0)).isDigit ∨
          currentChar input (skipWhitespace input s0) = '"' ∨
          currentChar input (skipWhitespace input s0) = '\'' then
        .ok (tok, s1)
      else .ok (tok, advanceLex input s1)
  else .ok (none, skipWhitespace input s0)

theorem nextTokenArms_ok (input : List Char) (s : LexerState)
    (hin : s.position < byteLen input) :
    ∀ tok s1, nextTokenArms input s = .ok (tok, s1) →
      s.position ≤ s1.position ∧ (∀ x, tok = some x → x ≠ Token.eof) ∧
      ((isIdentStartChar (currentChar input s) = true ∨
          (currentChar input s).isDigit = true ∨
          currentChar input s = '"' ∨ currentChar input s = '\'') →
        s.position < s1.position) := by
  intro tok s1 h
  unfold nextTokenArms at h
  by_cases c1 : currentChar input s = '+'
  · rw [if_pos c1] at h
    by_cases p1_1 : peekChar input s = some '='
    · rw [if_pos p1_1] at h
      simp only [Except.ok.injEq, Prod.mk.injEq] at h
      obtain ⟨h5, h6⟩ := h
      subst h6; subst h5
      refine ⟨?_, ?_, ?_⟩
      · simp only [advanceLex_position]; omega
      · intro x hx; injection hx with hx2; subst hx2; decide
      · intro hcls; simp only [advanceLex_position]; omega
    rw [if_neg p1_1] at h
    by_cases p1_2 : peekChar input s = some '+'
    · rw [if_pos p1_2] at h
      simp only [Except.ok.injEq, Prod.mk.injEq] at h
      obtain ⟨h5, h6⟩ := h
      subst h6; subst h5
      refine ⟨?_, ?_, ?_⟩
      · simp only [advanceLex_position]; omega
      · intro x hx; injection hx with hx2; subst hx2; decide
      · intro hcls; simp only [advanceLex_position]; omega
    rw [if_neg p1_2] at h
    simp only [Except.ok.injEq, Prod.mk.injEq] at h
    obtain ⟨h5, h6⟩ := h
    subst h6; subst h5
    refine ⟨?_, ?_, ?_⟩
    · exact le_refl _
    · intro x hx; injection hx with hx2; subst hx2; decide
    · intro hcls; rw [c1] at hcls; exact absurd hcls (by decide)
  rw [if_neg c1] at h
  by_cases c2 : currentChar input s = '-'
  · rw [if_pos c2] at h
    by_cases p2_1 : peekChar input s = some '='
    · rw [if_pos p2_1] at h
      simp only [Except.ok.injEq, Prod.mk.injEq] at h
      obtain ⟨h5, h6⟩ := h
      subst h6; subst h5
      refine ⟨?_, ?_, ?_⟩
      · simp only [advanceLex_position]; omega
      · intro x hx; injection hx with hx2; subst hx2; decide
      · intro hcls; simp only [advanceLex_position]; omega
    rw [if_neg p2_1] at h
    by_cases p2_2 : peekChar input s = some '>'
    · rw [if_pos p2_2] at h
      simp only [Except.ok.injEq, Prod.mk.injEq] at h
      obtain ⟨h5, h6⟩ := h
      subst h6; subst h5
      refine ⟨?_, ?_, ?_⟩
      · simp only [advanceLex_position]; omega
      · intro x hx; injection hx with hx2; subst hx2; decide
      · intro hcls; simp only [advanceLex_position]; omega
    rw [if_neg p2_2] at h
    simp only [Except.ok.injEq, Prod.mk.injEq] at h
    obtain ⟨h5, h6⟩ := h
    subst h6; subst h5
    refine ⟨?_, ?_, ?_⟩
    · exact le_refl _
    · intro x hx; injection hx with hx2; subst hx2; decide
    · intro hcls; rw [c2] at hcls; exact absurd hcls (by decide)
  rw [if_neg c2] at h
  by_cases c3 : currentChar input s = '*'
  · rw [if_pos c3] at h
    by_cases p3_1 : peekChar input s = some '='
    · rw [if_pos p3_1] at h
      simp only [Except.ok.injEq, Prod.mk.injEq] at h
      obtain ⟨h5, h6⟩ := h
      subst h6; subst h5
      refine ⟨?_, ?_, ?_⟩
      · simp only [advanceLex_position]; omega
      · intro x hx; injection hx with hx2; subst hx2; decide
      · intro hcls; simp only [advanceLex_position]; omega
    rw [if_neg p3_1] at h
    simp only [Except.ok.injEq, Prod.mk.injEq] at h
    obtain ⟨h5, h6⟩ := h
    subst h6; subst h5
    refine ⟨?_, ?_, ?_⟩
    · exact le_refl _
    · intro x hx; injection hx with hx2; subst hx2; decide
    · intro hcls; rw [c3] at hcls; exact absurd hcls (by decide)
  rw [if_neg c3] at h
  by_cases c4 : currentChar input s = '/'
  · rw [if_pos c4] at h
    by_cases p4_1 : peekChar input s = some '='
    · rw [if_pos p4_1] at h
      simp only [Except.ok.injEq, Prod.mk.injEq] at h
      obtain ⟨h5, h6⟩ := h
      subst h6; subst h5
      refine ⟨?_, ?_, ?_⟩
      · simp only [advanceLex_position]; omega
      · intro x hx; injection hx with hx2; subst hx2; decide
      · intro hcls; simp only [advanceLex_position]; omega
    rw [if_neg p4_1] at h
    by_cases p4_2 : peekChar input s = some '/'
    · rw [if_pos p4_2] at h
      simp only [Except.ok.injEq, Prod.mk.injEq] at h
      obtain ⟨h5, h6⟩ := h
      subst h6; subst h5
      have g1 := skipToNewline_ge input (advanceLex input s)
      have a1 := advanceLex_position input s
      exact ⟨by omega, fun x hx => Option.noConfusion hx, fun _ => by omega⟩
    rw [if_neg p4_2] at h
    by_cases p4_3 : peekChar input s = some '*'
    · rw [if_pos p4_3] at h
      simp only [Except.ok.injEq, Prod.mk.injEq] at h
      obtain ⟨h5, h6⟩ := h
      subst h6; subst h5
      have g1 := skipBlockComment_ge input (advanceLex input s)
      have a1 := advanceLex_position input s
      exact ⟨by omega, fun x hx => Option.noConfusion hx, fun _ => by omega⟩
    rw [if_neg p4_3] at h
    simp only [Except.ok.injEq, Prod.mk.injEq] at h
    obtain ⟨h5, h6⟩ := h
    subst h6; subst h5
    refine ⟨?_, ?_, ?_⟩
    · exact le_refl _
    · intro x hx; injection hx with hx2; subst hx2; decide
    · intro hcls; rw [c4] at hcls; exact absurd hcls (by decide)
  rw [if_neg c4] at h
  by_cases c5 : currentChar input s = '%'
  · rw [if_pos c5] at h
    simp only [Except.ok.injEq, Prod.mk.injEq] at h
    obtain ⟨h5, h6⟩ := h
    subst h6; subst h5
    refine ⟨?_, ?_, ?_⟩
    · exact le_refl _
    · intro x hx; injection hx with hx2; subst hx2; decide
    · intro hcls; rw [c5] at hcls; exact absurd hcls (by decide)
  rw [if_neg c5] at h
  by_cases c6 : currentChar input s = '='
  · rw [if_pos c6] at h
    by_cases p6_1 : peekChar input s = some '='
    · rw [if_pos p6_1] at h
      by_cases q : peekChar input (advanceLex input s) = some '='
      · rw [if_pos q] at h
        simp only [Except.ok.injEq, Prod.mk.injEq] at h
        obtain ⟨h5, h6⟩ := h
        subst h6; subst h5
        refine ⟨?_, ?_, ?_⟩
        · simp only [advanceLex_position]; omega
        · intro x hx; injection hx with hx2; subst hx2; decide
        · intro hcls; simp only [advanceLex_position]; omega
      rw [if_neg q] at h
      simp only [Except.ok.injEq, Prod.mk.injEq] at h
      obtain ⟨h5, h6⟩ := h
      subst h6; subst h5
      refine ⟨?_, ?_, ?_⟩
      · simp only [advanceLex_position]; omega
      · intro x hx; injection hx with hx2; subst hx2; decide
      · intro hcls; simp only [advanceLex_position]; omega
    rw [if_neg p6_1] at h
    simp only [Except.ok.injEq, Prod.mk.injEq] at h
    obtain ⟨h5, h6⟩ := h
    subst h6; subst h5
    refine ⟨?_, ?_, ?_⟩
    · exact le_refl _
    · intro x hx; injection hx with hx2; subst hx2; decide
    · intro hcls; rw [c6] at hcls; exact absurd hcls (by decide)
  rw [if_neg c6] at h
  by_cases c7 : currentChar input s = '!'
  · rw [if_pos c7] at h
    by_cases p7_1 : peekChar input s = some '='
    · rw [if_pos p7_1] at h
      by_cases q : peekChar input (advanceLex input s) = some '='
      · rw [if_pos q] at h
        simp only [Except.ok.injEq, Prod.mk.injEq] at h
        obtain ⟨h5, h6⟩ := h
        subst h6; subst h5
        refine ⟨?_, ?_, ?_⟩
        · simp only [advanceLex_position]; omega
        · intro x hx; injection hx with hx2; subst hx2; decide
        · intro hcls; simp only [advanceLex_position]; omega
      rw [if_neg q] at h
      simp only [Except.ok.injEq, Prod.mk.injEq] at h
      obtain ⟨h5, h6⟩ := h
      subst h6; subst h5
      refine ⟨?_, ?_, ?_⟩
      · simp only [advanceLex_position]; omega
      · intro x hx; injection hx with hx2; subst hx2; decide
      · intro hcls; simp only [advanceLex_position]; omega
    rw [if_neg p7_1] at h
    simp only [Except.ok.injEq, Prod.mk.injEq] at h
    obtain ⟨h5, h6⟩ := h
    subst h6; subst h5
    refine ⟨?_, ?_, ?_⟩
    · exact le_refl _
    · intro x hx; injection hx with hx2; subst hx2; decide
    · intro hcls; rw [c7] at hcls; exact absurd hcls (by decide)
  rw [if_neg c7] at h
  by_cases c8 : currentChar input s = '<'
  · rw [if_pos c8] at h
    by_cases p8_1 : peekChar input s = some '='
    · rw [if_pos p8_1] at h
      simp only [Except.ok.injEq, Prod.mk.injEq] at h
      obtain ⟨h5, h6⟩ := h
      subst h6; subst h5
      refine ⟨?_, ?_, ?_⟩
      · simp only [advanceLex_position]; omega
      · intro x hx; injection hx with hx2; subst hx2; decide
      · intro hcls; simp only [advanceLex_position]; omega
    rw [if_neg p8_1] at h
    simp only [Except.ok.injEq, Prod.mk.injEq] at h
    obtain ⟨h5, h6⟩ := h
    subst h6; subst h5
    refine ⟨?_, ?_, ?_⟩
    · exact le_refl _
    · intro x hx; injection hx with hx2; subst hx2; decide
    · intro hcls; rw [c8] at hcls; exact absurd hcls (by decide)
  rw [if_neg c8] at h
  by_cases c9 : currentChar input s = '>'
  · rw [if_pos c9] at h
    by_cases p9_1 : peekChar input s = some '='
    · rw [if_pos p9_1] at h
      simp only [Except.ok.injEq, Prod.mk.injEq] at h
      obtain ⟨h5, h6⟩ := h
      subst h6; subst h5
      refine ⟨?_, ?_, ?_⟩
      · simp only [advanceLex_position]; omega
      · intro x hx; injection hx with hx2; subst hx2; decide
      · intro hcls; simp only [advanceLex_position]; omega
    rw [if_neg p9_1] at h
    simp only [Except.ok.injEq, Prod.mk.injEq] at h
    obtain ⟨h5, h6⟩ := h
    subst h6; subst h5
    refine ⟨?_, ?_, ?_⟩
    · exact le_refl _
    · intro x hx; injection hx with hx2; subst hx2; decide
    · intro hcls; rw [c9] at hcls; exact absurd hcls (by decide)
  rw [if_neg c9] at h
  by_cases c10 : currentChar input s = '&'
  · rw [if_pos c10] at h
    by_cases p10_1 : peekChar input s = some '&'
    · rw [if_pos p10_1] at h
      simp only [Except.ok.injEq, Prod.mk.injEq] at h
      obtain ⟨h5, h6⟩ := h
      subst h6; subst h5
      refine ⟨?_, ?_, ?_⟩
      · simp only [advanceLex_position]; omega
      · intro x hx; injection hx with hx2; subst hx2; decide
      · intro hcls; simp only [advanceLex_position]; omega
    rw [if_neg p10_1] at h
    simp only [Except.ok.injEq, Prod.mk.injEq] at h
    obtain ⟨h5, h6⟩ := h
    subst h6; subst h5
    refine ⟨?_, ?_, ?_⟩
    · exact le_refl _
    · intro x hx; injection hx with hx2; subst hx2; decide
    · intro hcls; rw [c10] at hcls; exact absurd hcls (by decide)
  rw [if_neg c10] at h
  by_cases c11 : currentChar input s = '|'
  · rw [if_pos c11] at h
    by_cases p11_1 : peekChar input s = some '|'
    · rw [if_pos p11_1] at h
      simp only [Except.ok.injEq, Prod.mk.injEq] at h
      obtain ⟨h5, h6⟩ := h
      subst h6; subst h5
      refine ⟨?_, ?_, ?_⟩
      · simp only [advanceLex_position]; omega
      · intro x hx; injection hx with hx2; subst hx2; decide
      · intro hcls; simp only [advanceLex_position]; omega
    rw [if_neg p11_1] at h
    simp only [Except.ok.injEq, Prod.mk.injEq] at h
    obtain ⟨h5, h6⟩ := h
    subst h6; subst h5
    refine ⟨?_, ?_, ?_⟩
    · exact le_refl _
    · intro x hx; injection hx with hx2; subst hx2; decide
    · intro hcls; rw [c11] at hcls; exact absurd hcls (by decide)
  rw [if_neg c11] at h
  by_cases c12 : currentChar input s = '('
  · rw [if_pos c12] at h
    simp only [Except.ok.injEq, Prod.mk.injEq] at h
    obtain ⟨h5, h6⟩ := h
    subst h6; subst h5
    refine ⟨?_, ?_, ?_⟩
    · exact le_refl _
    · intro x hx; injection hx with hx2; subst hx2; decide
    · intro hcls; rw [c12] at hcls; exact absurd hcls (by decide)
  rw [if_neg c12] at h
  by_cases c13 : currentChar input s = ')'
  · rw [if_pos c13] at h
    simp only [Except.ok.injEq, Prod.mk.injEq] at h
    obtain ⟨h5, h6⟩ := h
    subst h6; subst h5
    refine ⟨?_, ?_, ?_⟩
    · exact le_refl _
    · intro x hx; injection hx with hx2; subst hx2; decide
    · intro hcls; rw [c13] at hcls; exact absurd hcls (by decide)
  rw [if_neg c13] at h
  by_cases c14 : currentChar input s = '\x7b'
  · rw [if_pos c14] at h
    simp only [Except.ok.injEq, Prod.mk.injEq] at h
    obtain ⟨h5, h6⟩ := h
    subst h6; subst h5
    refine ⟨?_, ?_, ?_⟩
    · exact le_refl _
    · intro x hx; injection hx with hx2; subst hx2; decide
    · intro hcls; rw [c14] at hcls; exact absurd hcls (by decide)
  rw [if_neg c14] at h
  by_cases c15 : currentChar input s = '\x7d'
  · rw [if_pos c15] at h
    simp only [Except.ok.injEq, Prod.mk.injEq] at h
    obtain ⟨h5, h6⟩ := h
    subst h6; subst h5
    refine ⟨?_, ?_, ?_⟩
    · exact le_refl _
    · intro x hx; injection hx with hx2; subst hx2; decide
    · intro hcls; rw [c15] at hcls; exact absurd hcls (by decide)
  rw [if_neg c15] at h
  by_cases c16 : currentChar input s = '['
  · rw [if_pos c16] at h
    simp only [Except.ok.injEq, Prod.mk.injEq] at h
    obtain ⟨h5, h6⟩ := h
    subst h6; subst h5
    refine ⟨?_, ?_, ?_⟩
    · exact le_refl _
    · intro x hx; injection hx with hx2; subst hx2; decide
    · intro hcls; rw [c16] at hcls; exact absurd hcls (by decide)
  rw [if_neg c16] at h
  by_cases c17 : currentChar input s = ']'
  · rw [if_pos c17] at h
    simp only [Except.ok.injEq, Prod.mk.injEq] at h
    obtain ⟨h5, h6⟩ := h
    subst h6; subst h5
    refine ⟨?_, ?_, ?_⟩
    · exact le_refl _
    · intro x hx; injection hx with hx2; subst hx2; decide
    · intro hcls; rw [c17] at hcls; exact absurd hcls (by decide)
  rw [if_neg c17] at h
  by_cases c18 : currentChar input s = ';'
  · rw [if_pos c18] at h
    simp only [Except.ok.injEq, Prod.mk.injEq] at h
    obtain ⟨h5, h6⟩ := h
    subst h6; subst h5
    refine ⟨?_, ?_, ?_⟩
    · exact le_refl _
    · intro x hx; injection hx with hx2; subst hx2; decide
    · intro hcls; rw [c18] at hcls; exact absurd hcls (by decide)
  rw [if_neg c18] at h
  by_cases c19 : currentChar input s = ','
  · rw [if_pos c19] at h
    simp only [Except.ok.injEq, Prod.mk.injEq] at h
    obtain ⟨h5, h6⟩ := h
    subst h6; subst h5
    refine ⟨?_, ?_, ?_⟩
    · exact le_refl _
    · intro x hx; injection hx with hx2; subst hx2; decide
    · intro hcls; rw [c19] at hcls; exact absurd hcls (by decide)
  rw [if_neg c19] at h
  by_cases c20 : currentChar input s = '.'
  · rw [if_pos c20] at h
    simp only [Except.ok.injEq, Prod.mk.injEq] at h
    obtain ⟨h5, h6⟩ := h
    subst h6; subst h5
    refine ⟨?_, ?_, ?_⟩
    · exact le_refl _
    · intro x hx; injection hx with hx2; subst hx2; decide
    · intro hcls; rw [c20] at hcls; exact absurd hcls (by decide)
  rw [if_neg c20] at h
  by_cases c21 : currentChar input s = ':'
  · rw [if_pos c21] at h
    simp only [Except.ok.injEq, Prod.mk.injEq] at h
    obtain ⟨h5, h6⟩ := h
    subst h6; subst h5
    refine ⟨?_, ?_, ?_⟩
    · exact le_refl _
    · intro x hx; injection hx with hx2; subst hx2; decide
    · intro hcls; rw [c21] at hcls; exact absurd hcls (by decide)
  rw [if_neg c21] at h
  by_cases c22 : currentChar input s = '?'
  · rw [if_pos c22] at h
    simp only [Except.ok.injEq, Prod.mk.injEq] at h
    obtain ⟨h5, h6⟩ := h
    subst h6; subst h5
    refine ⟨?_, ?_, ?_⟩
    · exact le_refl _
    · intro x hx; injection hx with hx2; subst hx2; decide
    · intro hcls; rw [c22] at hcls; exact absurd hcls (by decide)
  rw [if_neg c22] at h
  by_cases c23 : currentChar input s = '"' ∨ currentChar input s = '\''
  · rw [if_pos c23] at h
    unfold parseString at h
    obtain ⟨hlt, w, hw⟩ := parseStringLoop_ok input (currentChar input s) ""
      (advanceLex input s) tok s1 h
    have a := advanceLex_position input s
    subst hw
    exact ⟨by omega,
      by intro x hx; injection hx with hx2; subst hx2; simp,
      fun _ => by omega⟩
  rw [if_neg c23] at h
  by_cases c24 : currentChar input s = '\x60'
  · rw [if_pos c24] at h
    unfold parseTemplateLiteral at h
    obtain ⟨hlt, w, hw⟩ := parseTemplateLoop_ok input "" (advanceLex input s)
      tok s1 h
    have a := advanceLex_position input s
    subst hw
    exact ⟨by omega,
      by intro x hx; injection hx with hx2; subst hx2; simp,
      fun _ => by omega⟩
  rw [if_neg c24] at h
  by_cases c25 : (currentChar input s).isDigit = true
  · rw [if_pos c25] at h
    obtain ⟨hlt, w, hw⟩ := parseNumber_ok input s hin c25 tok s1 h
    subst hw
    exact ⟨by omega,
      by intro x hx; injection hx with hx2; subst hx2; simp,
      fun _ => hlt⟩
  rw [if_neg c25] at h
  by_cases c26 : isIdentStartChar (currentChar input s) = true
  · rw [if_pos c26] at h
    obtain ⟨hlt, hne⟩ := parseIdentifierOrKeyword_ok input s hin c26 tok s1 h
    exact ⟨by omega, hne, fun _ => hlt⟩
  rw [if_neg c26] at h
  exact Except.noConfusion h

theorem nextToken_ok_some (input : List Char) (s0 : LexerState) :
    ∀ t s2, nextToken input s0 = .ok (some t, s2) →
      s0.position < s2.position ∧ t ≠ Token.eof := by
  intro t s2 h
  unfold nextToken at h
  have hws := skipWhitespace_ge input s0
  by_cases hin : (skipWhitespace input s0).position < byteLen input
  · rw [if_pos hin] at h
    rcases harms : nextTokenArms input (skipWhitespace input s0) with e | ⟨tok, s1⟩
    · rw [harms] at h; exact Except.noConfusion h
    · rw [harms] at h
      dsimp only at h
      obtain ⟨hle, hne, hstrict⟩ :=
        nextTokenArms_ok input (skipWhitespace input s0) hin tok s1 harms
      by_cases hcl : isIdentStartChar (currentChar input (skipWhitespace input s0)) ∨
          (currentChar input (skipWhitespace input s0)).isDigit ∨
          currentChar input (skipWhitespace input s0) = '"' ∨
          currentChar input (skipWhitespace input s0) = '\''
      · rw [if_pos hcl] at h
        simp only [Except.ok.injEq, Prod.mk.injEq] at h
        obtain ⟨h5, h6⟩ := h
        subst h6
        have := hstrict (by simpa using hcl)
        exact ⟨by omega, hne t h5⟩
      · rw [if_neg hcl] at h
        simp only [Except.ok.injEq, Prod.mk.injEq] at h
        obtain ⟨h5, h6⟩ := h
        have a := advanceLex_position input s1
        subst h6
        exact ⟨by omega, hne t h5⟩
  · rw [if_neg hin] at h
    simp only [Except.ok.injEq, Prod.mk.injEq] at h
    exact absurd h.1 (by simp)

/-- The collection loop of `Lexer::tokenize`: gather tokens until the
cursor leaves the input (or `next_token` yields nothing), then append the
single end-of-stream marker.  (The `println!` tracing in the Rust loop has
no effect on the result.) -/
def tokenizeAux (input : List Char) (s : LexerState) :
    Except CompilerError (List Token) :=
  if s.position < byteLen input then
    match h2 : nextToken input s with
    | .error e => .error e
    | .ok (some t, s2) => (tokenizeAux input s2).map (fun rest => t :: rest)
    | .ok (none, _) => .ok [Token.eof]
  else .ok [Token.eof]
termination_by byteLen input - s.position
decreasing_by
  have := (nextToken_ok_some input s t s2 h2).1
  omega

/-- `Lexer::tokenize` from a fresh `Lexer::new` state. -/
def tokenize (input : List Char) : Except CompilerError (List Token) :=
  tokenizeAux input lexerNew

theorem tokenizeAux_eof (input : List Char) :
    ∀ (n : Nat) (s : LexerState), byteLen input - s.position ≤ n →
      ∀ ts, tokenizeAux input s = .ok ts →
        ts.count Token.eof = 1 ∧ ts.getLast? = some Token.eof := by
  intro n
  induction n with
  | zero =>
    intro s hn ts h
    rw [tokenizeAux] at h
    rw [if_neg (by omega)] at h
    simp only [Except.ok.injEq] at h
    subst h
    exact ⟨rfl, rfl⟩
  | succ n ih =>
    intro s hn ts h
    rw [tokenizeAux] at h
    by_cases hin : s.position < byteLen input
    · rw [if_pos hin] at h
      split at h
      · exact absurd h (by simp)
      · rename_i t s2 heq
        have hprog := (nextToken_ok_some input s t s2 heq).1
        have hne := (nextToken_ok_some input s t s2 heq).2
        rcases hrec : tokenizeAux input s2 with e | rest
        · rw [hrec] at h; exact absurd h (by simp [Except.map])
        · rw [hrec] at h
          simp only [Except.map, Except.ok.injEq] at h
          subst h
          obtain ⟨hcount, hlast⟩ := ih s2 (by omega) rest hrec
          constructor
          · simp only [List.count_cons, hcount]
            simp [hne]
          · rcases rest with _ | ⟨r, rs⟩
            · simp at hcount
            · simpa using hlast
      · simp only [Except.ok.injEq] at h
        subst h
        exact ⟨rfl, rfl⟩
    · rw [if_neg hin] at h
      simp only [Except.ok.injEq] at h
      subst h
      exact ⟨rfl, rfl⟩

/-! ## Abstract syntax tree (ast.rs)

The record structs of ast.rs are flattened into constructor fields of one
mutual family (Rust's `Box` indirections disappear; ownership is a tree
either way).  Two known in-tree revision conflicts are resolved the way
parser.rs and generator.rs — the code the claims cite — use the tree:
`Type::Union`/`Type::Intersection` are the binary `{ left, right }` form
(parser.rs line 898, types.rs line 112), and class members carry the
decorator data generator.rs reads (`ClassMember::Decorator`,
`method.decorators`, …).  `Type` is named `Ty` (`Type` is a Lean
universe). -/

/-- ast.rs `enum Literal` (`Number` keeps the Rust `f64`'s text). -/
inductive Literal where
  | string (s : String)
  | number (n : String)
  | boolean (b : Bool)
  | null
  | undefined
  | regExp (pattern : String) (flags : String)
  | bigInt (v : String)

/-- ast.rs `struct TemplateElement`. -/
structure TemplateElement where
  value : String
  tail : Bool

/-- ast.rs `enum ImportSpecifier` with its three payload structs. -/
inductive ImportSpecifier where
  | named (name : String) (imported : String)
  | defaultSpec (name : String)
  | namespaceSpec (name : String)

/-- ast.rs `enum Modifier`. -/
inductive Modifier where
  | mPublic | mPrivate | mProtected | mStatic | mReadonly | mAbstract
  | mAsync | mOverride

mutual

/-- ast.rs `enum Type`. -/
inductive Ty where
  | string
  | number
  | boolean
  | any
  | void
  | never
  | unknown
  | null
  | undefined
  | object
  | symbol
  | bigInt
  | named (name : String)
  | qualified (left : Ty) (right : String)
  | generic (type_ : Ty) (type_arguments : List Ty)
  | genericNamed (name : String) (type_parameters : List TypeParameter)
  | union (left : Ty) (right : Ty)
  | intersection (left : Ty) (right : Ty)
  | array (elem : Ty)
  | tuple (types : List Ty)
  | function (type_parameters : List TypeParameter) (parameters : List Parameter)
      (return_type : Ty)
  | objectType (members : List ObjectTypeMember)
  | indexSignature (parameter : Parameter) (type_ : Ty) (readonly : Bool)
  | mapped (type_parameter : TypeParameter) (constraint : Option Ty)
      (name_type : Option Ty) (type_ : Ty) (readonly : Option Bool)
      (optional : Option Bool)
  | conditional (check_type : Ty) (extends_type : Ty) (true_type : Ty)
      (false_type : Ty)
  | templateLiteral (head : String) (spans : List TemplateLiteralTypeSpan)
  | parenthesized (inner : Ty)
  | typeQuery (expr_name : Expression)
  | importType (argument : Ty) (qualifier : Option String)
      (type_arguments : Option (List Ty))

/-- ast.rs `struct TemplateLiteralTypeSpan`. -/
inductive TemplateLiteralTypeSpan where
  | mk (type_ : Ty) (literal : String)

/-- ast.rs `struct TypeParameter`. -/
inductive TypeParameter where
  | mk (name : String) (constraint : Option Ty) (default : Option Ty)

/-- ast.rs `struct Parameter`. -/
inductive Parameter where
  | mk (name : String) (optional : Bool) (type_ : Option Ty)
      (initializer : Option Expression) (rest : Bool)

/-- ast.rs `enum ObjectTypeMember` with its signature structs flattened
(`PropertySignature`, `MethodSignature`, `IndexSignature`,
`CallSignature`, `ConstructSignature`). -/
inductive ObjectTypeMember where
  | property (name : String) (optional : Bool) (type_ : Option Ty)
      (readonly : Bool)
  | method (name : String) (optional : Bool)
      (type_parameters : List TypeParameter) (parameters : List Parameter)
      (return_type : Option Ty)
  | index (parameter : Parameter) (type_ : Ty) (readonly : Bool)
  | call (type_parameters : List TypeParameter) (parameters : List Parameter)
      (return_type : Option Ty)
  | construct (type_parameters : List TypeParameter)
      (parameters : List Parameter) (return_type : Option Ty)

/-- ast.rs `enum Expression` with its payload structs flattened. -/
inductive Expression where
  | literal (l : Literal)
  | identifier (name : String)
  | binary (left : Expression) (operator : Token) (right : Expression)
  | unary (operator : Token) (argument : Expression)
  | logical (left : Expression) (operator : Token) (right : Expression)
  | conditional (test : Expression) (consequent : Expression)
      (alternate : Expression)
  | assignment (left : Expression) (operator : Token) (right : Expression)
  | call (callee : Expression) (arguments : List Expression)
  | member (object : Expression) (property : Expression) (computed : Bool)
  | array (elements : List (Option Expression))
  | object (properties : List ObjectProperty)
  | parenthesized (expression : Expression)
  | arrow (type_parameters : List TypeParameter) (parameters : List Parameter)
      (return_type : Option Ty) (body : Statement)
  | newExpr (callee : Expression) (arguments : List Expression)
  | superExpr
  | thisExpr
  | yieldExpr (argument : Option Expression) (delegate : Bool)
  | awaitExpr (argument : Expression)
  | typeAssertion (expression : Expression) (type_ : Ty)
  | asExpression (expression : Expression) (type_ : Ty)
  | nonNull (expression : Expression)
  | optionalExpr (expression : Expression) (optional : Bool)
  | template (quasis : List TemplateElement) (expressions : List Expression)
  | taggedTemplate (tag : Expression) (quasiQuasis : List TemplateElement)
      (quasiExpressions : List Expression)

/-- ast.rs `struct ObjectProperty`. -/
inductive ObjectProperty where
  | mk (key : Expression) (value : Expression) (shorthand : Bool)
      (computed : Bool) (method : Bool)

/-- ast.rs `enum ClassMember` in the decorator-bearing revision
generator.rs is written against (`Property`, `Method`, `Constructor`,
`Getter`, `Setter`, `Index`, `Decorator`; the declaration structs are
flattened, each with its `decorators: Vec<String>` where generator.rs
reads one). -/
inductive ClassMember where
  | property (name : String) (optional : Bool) (type_ : Option Ty)
      (initializer : Option Expression) (modifiers : List Modifier)
  | method (name : String) (optional : Bool)
      (type_parameters : List TypeParameter) (parameters : List Parameter)
      (return_type : Option Ty) (body : Option Statement)
      (modifiers : List Modifier) (decorators : List String)
  | ctor (parameters : List Parameter) (body : Option Statement)
      (modifiers : List Modifier) (decorators : List String)
  | getter (name : String) (type_ : Option Ty) (body : Option Statement)
      (modifiers : List Modifier) (decorators : List String)
  | setter (name : String) (parameter : Parameter) (body : Option Statement)
      (modifiers : List Modifier) (decorators : List String)
  | index (parameter : Parameter) (type_ : Ty) (readonly : Bool)
  | decorator (name : String)

/-- ast.rs `struct EnumMember`. -/
inductive EnumMember where
  | mk (name : String) (initializer : Option Expression)

/-- ast.rs `struct CatchClause`. -/
inductive CatchClause where
  | mk (parameter : Option Parameter) (body : Statement)

/-- ast.rs `struct SwitchCase`. -/
inductive SwitchCase where
  | mk (expression : Option Expression) (statements : List Statement)

/-- ast.rs `enum Statement` with its declaration structs flattened
(`ClassBody`/`InterfaceBody` become the member lists). -/
inductive Statement where
  | variableDeclaration (keyword : Keyword) (name : String)
      (type_annot : Option Ty) (initializer : Option Expression)
  | functionDeclaration (name : String)
      (type_parameters : List TypeParameter) (parameters : List Parameter)
      (return_type : Option Ty) (body : Statement)
  | classDeclaration (name : String) (type_parameters : List TypeParameter)
      (extendsClause : Option Ty) (implements : List Ty)
      (body : List ClassMember)
  | interfaceDeclaration (name : String)
      (type_parameters : List TypeParameter) (extendsClause : List Ty)
      (body : List ObjectTypeMember)
  | typeAlias (name : String) (type_parameters : List TypeParameter)
      (type_definition : Ty)
  | enumDeclaration (name : String) (members : List EnumMember)
  | importDeclaration (specifiers : List ImportSpecifier) (source : String)
  | exportDeclaration (declaration : Statement)
  | namespaceDeclaration (name : String) (body : Statement)
  | moduleDeclaration (name : String) (body : Statement)
  | declareStatement (declaration : Statement)
  | blockStatement (statements : List Statement)
  | expressionStatement (expression : Expression)
  | ifStatement (condition : Expression) (consequent : Statement)
      (alternate : Option Statement)
  | whileStatement (condition : Expression) (body : Statement)
  | forStatement (init : Option Expression) (condition : Option Expression)
      (update : Option Expression) (body : Statement)
  | returnStatement (argument : Option Expression)
  | breakStatement (label : Option String)
  | continueStatement (label : Option String)
  | throwStatement (argument : Expression)
  | tryStatement (block : Statement) (handler : Option CatchClause)
      (finalizer : Option Statement)
  | switchStatement (discriminant : Expression) (cases : List SwitchCase)

end

/-- ast.rs `struct Program`. -/
structure Program where
  statements : List Statement

/-! ## Type mapper (types.rs)

`map_type` takes `&mut self` in Rust but its body only reads
`self.type_mappings` and `self.runtime` and assigns no field; `generics`
is touched only by `add_generic`/`clear_generics`, which `map_type` never
calls.  The embedding therefore passes the whole `TypeMapper` value and
returns only the string. -/

/-- types.rs `struct TypeMapper` (the `HashMap` is an association list;
`get` is keyed lookup). -/
structure TypeMapper where
  type_mappings : List (String × String)
  generics : List String
  runtime : Bool

/-- `TypeMapper::new`. -/
def TypeMapper.new (runtime : Bool) : TypeMapper :=
  { type_mappings := [
      ("string", "String"), ("number", "f64"), ("boolean", "bool"),
      ("void", "()"), ("never", "!"), ("any", "Box<dyn Any>"),
      ("unknown", "Box<dyn Any>"), ("null", "Option<()>"),
      ("undefined", "Option<()>"), ("object", "Box<dyn Any>"),
      ("symbol", "Symbol"), ("bigint", "i64")],
    generics := [],
    runtime := runtime }

/-- types.rs `extract_struct_name`: the text between the first
`struct ` and the following ` {`, else `"Unknown"`. -/
def extract_struct_name (code : String) : String :=
  match afterFirst code "struct " with
  | none => "Unknown"
  | some tail =>
    if scontains tail " \x7b" then splitFirst tail " \x7b" else "Unknown"

/-- The character loop of `TypeMapper::to_pascal_case` (Rust uppercases
with `to_uppercase().next()`; `Char.toUpper` matches it on ASCII, the only
characters the lexer lets into a name). -/
def toPascalAux : List Char → Bool → String → String
  | [], _, acc => acc
  | c :: cs, capitalize, acc =>
    if c = '_' ∨ c = '-' then toPascalAux cs true acc
    else if capitalize then toPascalAux cs false (acc.push c.toUpper)
    else toPascalAux cs false (acc.push c)

/-- `TypeMapper::to_pascal_case`. -/
def to_pascal_case (s : String) : String := toPascalAux s.toList true ""

/-- `TypeMapper::map_named_type`: the fixed table first, else PascalCase. -/
def map_named_type (m : TypeMapper) (name : String) :
    Except CompilerError String :=
  match m.type_mappings.lookup name with
  | some mapped => .ok mapped
  | none => .ok (to_pascal_case name)

/-- The parameter mapping of `GenericNamed` in `map_type`: Rust calls
`self.map_type(&Type::Named(param.name.clone()))`, which dispatches
immediately to `map_named_type`; inlined so the recursion stays on
subterms. -/
def mapTyParamNames (m : TypeMapper) :
    List TypeParameter → Except CompilerError (List String)
  | [] => .ok []
  | .mk name _ _ :: ps => do
    let s ← map_named_type m name
    let rest ← mapTyParamNames m ps
    .ok (s :: rest)

mutual

/-- `TypeMapper::map_type`.  The single-call-site helpers
`map_qualified_type`, `map_generic_type`, `map_conditional_type`,
`map_template_literal_type`, `map_type_query`, `map_import_type`,
`map_index_signature` and `map_mapped_type` are inlined into their
arms; `{`/`}` in emitted text are written `\x7b`/`\x7d`. -/
def mapTy (m : TypeMapper) : Ty → Except CompilerError String
  | .string => .ok "String"
  | .number => .ok "f64"
  | .boolean => .ok "bool"
  | .any => if m.runtime then .ok "Box<dyn Any>" else .ok "serde_json::Value"
  | .void => .ok "()"
  | .never => .ok "!"
  | .unknown =>
    if m.runtime then .ok "Box<dyn Any>" else .ok "serde_json::Value"
  | .null => .ok "Option<()>"
  | .undefined => .ok "Option<()>"
  | .object =>
    if m.runtime then .ok "Box<dyn Any>" else .ok "serde_json::Value"
  | .symbol => .ok "Symbol"
  | .bigInt => .ok "i64"
  | .named name => map_named_type m name
  | .qualified left right => do
    let l ← mapTy m left
    .ok (l ++ "::" ++ right)
  | .generic type_ type_arguments => do
    let base ← mapTy m type_
    let args ← mapTyList m type_arguments
    if args.isEmpty then .ok base
    else .ok (base ++ "<" ++ String.intercalate ", " args ++ ">")
  | .genericNamed name type_parameters => do
    let rust_name ← map_named_type m name
    if type_parameters.isEmpty then .ok rust_name
    else do
      let param_types ← mapTyParamNames m type_parameters
      .ok (rust_name ++ "<" ++ String.intercalate ", " param_types ++ ">")
  | .union left right => do
    let l ← mapTy m left
    let r ← mapTy m right
    .ok ("Union<" ++ l ++ ", " ++ r ++ ">")
  | .intersection left right => do
    let l ← mapTy m left
    let r ← mapTy m right
    if sstarts l "#[derive" ∧ sstarts r "#[derive" then
      .ok (extract_struct_name l ++ "And" ++ extract_struct_name r)
    else
      .ok ("Intersection<" ++ l ++ ", " ++ r ++ ">")
  | .array elem => do
    let e ← mapTy m elem
    .ok ("Vec<" ++ e ++ ">")
  | .tuple types => mapTupleTy m types
  | .function _ parameters return_type => mapFunctionTy m parameters return_type
  | .objectType members => mapObjectTy m members
  | .indexSignature parameter type_ _ =>
    match parameter with
    | .mk _ _ (some pt) _ _ => do
      let key ← mapTy m pt
      let val ← mapTy m type_
      .ok ("HashMap<" ++ key ++ ", " ++ val ++ ">")
    | .mk _ _ none _ _ => do
      let key ← mapTy m Ty.string
      let val ← mapTy m type_
      .ok ("HashMap<" ++ key ++ ", " ++ val ++ ">")
  | .mapped type_parameter _ _ type_ _ _ =>
    match type_parameter with
    | .mk _ (some c) _ => do
      let key ← mapTy m c
      let val ← mapTy m type_
      .ok ("HashMap<" ++ key ++ ", " ++ val ++ ">")
    | .mk _ none _ => do
      let key ← mapTy m Ty.string
      let val ← mapTy m type_
      .ok ("HashMap<" ++ key ++ ", " ++ val ++ ">")
  | .conditional check_type extends_type true_type false_type => do
    let check ← mapTy m check_type
    let ext ← mapTy m extends_type
    let _t ← mapTy m true_type
    let _f ← mapTy m false_type
    .ok ("trait ConditionalType \x7b\n    type Output: PartialEq<" ++ ext ++
      ">;\n    fn condition<" ++ check ++ ">() -> Self::Output;\n\x7d")
  | .templateLiteral head _ => .ok ("\"" ++ head ++ "\"")
  | .parenthesized inner => mapTy m inner
  | .typeQuery _ => .ok "TypeQuery"
  | .importType argument qualifier _ => do
    let base ← mapTy m argument
    match qualifier with
    | some q => .ok (base ++ "::" ++ q)
    | none => .ok base
termination_by t => 2 * sizeOf t + 1
decreasing_by all_goals (simp_wf <;> omega)

/-- Elementwise `map_type` over a type list (the `iter().map(...)
.collect::<Result<_>>()` pattern of types.rs). -/
def mapTyList (m : TypeMapper) : List Ty → Except CompilerError (List String)
  | [] => .ok []
  | t :: ts => do
    let s ← mapTy m t
    let rest ← mapTyList m ts
    .ok (s :: rest)
termination_by l => 2 * sizeOf l
decreasing_by all_goals (simp_wf <;> omega)

/-- `TypeMapper::map_tuple_type`. -/
def mapTupleTy (m : TypeMapper) (types : List Ty) :
    Except CompilerError String :=
  if types.isEmpty then .ok "()"
  else do
    let rust_types ← mapTyList m types
    .ok ("(" ++ String.intercalate ", " rust_types ++ ")")
termination_by 2 * sizeOf types + 2
decreasing_by all_goals (simp_wf <;> omega)

/-- The parameter mapping shared by `map_function_type` and the method
arm of `map_object_type` (`{name}: {mapped-or-boxed}`). -/
def mapFnParams (m : TypeMapper) :
    List Parameter → Except CompilerError (List String)
  | [] => .ok []
  | .mk name _ ptype _ _ :: ps => do
    let pt ← (match ptype with
      | some t => mapTy m t
      | none => .ok "Box<dyn Any>")
    let rest ← mapFnParams m ps
    .ok ((name ++ ": " ++ pt) :: rest)
termination_by l => 2 * sizeOf l
decreasing_by all_goals (simp_wf <;> omega)

/-- `TypeMapper::map_function_type` (its `type_parameters` are unused in
Rust). -/
def mapFunctionTy (m : TypeMapper) (parameters : List Parameter)
    (return_type : Ty) : Except CompilerError String := do
  let params ← mapFnParams m parameters
  let ret ← mapTy m return_type
  .ok ("fn(" ++ String.intercalate ", " params ++ ") -> " ++ ret)
termination_by 2 * (sizeOf parameters + sizeOf return_type) + 2
decreasing_by all_goals (simp_wf <;> omega)

/-- The member loop of `TypeMapper::map_object_type` (non-property,
non-method members are skipped by its `_ => {}` arm). -/
def mapObjMembers (m : TypeMapper) :
    List ObjectTypeMember → Except CompilerError (List String)
  | [] => .ok []
  | .property name optional ptype _ :: ms => do
    let ft ← (match ptype with
      | some t => mapTy m t
      | none => .ok "Box<dyn Any>")
    let field := if optional then name ++ ": Option<" ++ ft ++ ">"
      else name ++ ": " ++ ft
    let rest ← mapObjMembers m ms
    .ok (field :: rest)
  | .method name _ _ parameters return_type :: ms => do
    let params ← mapFnParams m parameters
    let rt ← (match return_type with
      | some t => mapTy m t
      | none => .ok "()")
    let rest ← mapObjMembers m ms
    .ok (("fn " ++ name ++ "(" ++ String.intercalate ", " params ++ ") -> " ++
      rt) :: rest)
  | .index p t r :: ms => mapObjMembers m ms
  | .call tp p r :: ms => mapObjMembers m ms
  | .construct tp p r :: ms => mapObjMembers m ms
termination_by l => 2 * sizeOf l
decreasing_by all_goals (simp_wf <;> omega)

/-- `TypeMapper::map_object_type`. -/
def mapObjectTy (m : TypeMapper) (members : List ObjectTypeMember) :
    Except CompilerError String := do
  let struct_fields ← mapObjMembers m members
  .ok ("#[derive(Debug, Clone, Serialize, Deserialize)]\npub struct ObjectType_"
    ++ toString struct_fields.length ++ " \x7b\n    " ++
    String.intercalate ",\n    " struct_fields ++ "\n\x7d")
termination_by 2 * sizeOf members + 2
decreasing_by all_goals (simp_wf <;> omega)

end

/-! ## Code generator (generator.rs) -/

/-- Rust derived `Debug` rendering of a `Keyword` (used by the
generator through `format!("{:?}", token)` in diagnostics). -/
def keywordDebug : Keyword → String
  | .kLet => "Let"
  | .kConst => "Const"
  | .kVar => "Var"
  | .kFunction => "Function"
  | .kClass => "Class"
  | .kInterface => "Interface"
  | .kType => "Type"
  | .kEnum => "Enum"
  | .kNamespace => "Namespace"
  | .kModule => "Module"
  | .kImport => "Import"
  | .kExport => "Export"
  | .kFrom => "From"
  | .kAs => "As"
  | .kDefault => "Default"
  | .kIf => "If"
  | .kElse => "Else"
  | .kSwitch => "Switch"
  | .kCase => "Case"
  | .kDefaultCase => "DefaultCase"
  | .kFor => "For"
  | .kWhile => "While"
  | .kDo => "Do"
  | .kBreak => "Break"
  | .kContinue => "Continue"
  | .kReturn => "Return"
  | .kThrow => "Throw"
  | .kTry => "Try"
  | .kCatch => "Catch"
  | .kFinally => "Finally"
  | .kExtends => "Extends"
  | .kImplements => "Implements"
  | .kSuper => "Super"
  | .kThis => "This"
  | .kNew => "New"
  | .kStatic => "Static"
  | .kPublic => "Public"
  | .kPrivate => "Private"
  | .kProtected => "Protected"
  | .kAbstract => "Abstract"
  | .kReadonly => "Readonly"
  | .kAsync => "Async"
  | .kAwait => "Await"
  | .kPromise => "Promise"
  | .kAny => "Any"
  | .kUnknown => "Unknown"
  | .kNever => "Never"
  | .kVoid => "Void"
  | .kNull => "Null"
  | .kUndefined => "Undefined"
  | .kBoolean => "Boolean"
  | .kNumber => "Number"
  | .kString => "String"
  | .kObject => "Object"
  | .kArray => "Array"
  | .kTuple => "Tuple"
  | .kUnion => "Union"
  | .kIntersection => "Intersection"
  | .kLiteral => "Literal"
  | .kMapped => "Mapped"
  | .kConditional => "Conditional"
  | .kTemplate => "Template"
  | .kPartialU => "Partial"
  | .kRequired => "Required"
  | .kPick => "Pick"
  | .kOmit => "Omit"
  | .kRecord => "Record"
  | .kExclude => "Exclude"
  | .kExtract => "Extract"
  | .kNonNullable => "NonNullable"
  | .kParameters => "Parameters"
  | .kReturnType => "ReturnType"
  | .kInstanceType => "InstanceType"
  | .kThisParameterType => "ThisParameterType"
  | .kOmitThisParameter => "OmitThisParameter"
  | .kThisType => "ThisType"
  | .kTrue => "True"
  | .kFalse => "False"
  | .kIn => "In"
  | .kOf => "Of"
  | .kInstanceof => "Instanceof"
  | .kTypeof => "Typeof"
  | .kKeyof => "Keyof"
  | .kKey => "Key"
  | .kIs => "Is"
  | .kAsserts => "Asserts"
  | .kInfer => "Infer"
  | .kDeclare => "Declare"
  | .kAmbient => "Ambient"
  | .kGlobal => "Global"

/-- Rust derived `Debug` rendering of a `Token`.  Payload variants
print their payload; the `f64` of `Number` prints as the text the
embedding carries (see the conventions at the top of this file). -/
def tokenDebug : Token → String
  | .number n => "Number(" ++ n ++ ")"
  | .string s => "String(\"" ++ s ++ "\")"
  | .templateLiteral s => "TemplateLiteral(\"" ++ s ++ "\")"
  | .boolean b => "Boolean(" ++ toString b ++ ")"
  | .identifier s => "Identifier(\"" ++ s ++ "\")"
  | .keyword k => "Keyword(" ++ keywordDebug k ++ ")"
  | .comment s => "Comment(\"" ++ s ++ "\")"
  | .plus => "Plus"
  | .minus => "Minus"
  | .multiply => "Multiply"
  | .divide => "Divide"
  | .modulo => "Modulo"
  | .equal => "Equal"
  | .notEqual => "NotEqual"
  | .strictEqual => "StrictEqual"
  | .strictNotEqual => "StrictNotEqual"
  | .lessThan => "LessThan"
  | .greaterThan => "GreaterThan"
  | .lessEqual => "LessEqual"
  | .greaterEqual => "GreaterEqual"
  | .and => "And"
  | .or => "Or"
  | .not => "Not"
  | .assign => "Assign"
  | .plusAssign => "PlusAssign"
  | .minusAssign => "MinusAssign"
  | .multiplyAssign => "MultiplyAssign"
  | .divideAssign => "DivideAssign"
  | .union => "Union"
  | .intersection => "Intersection"
  | .leftParen => "LeftParen"
  | .rightParen => "RightParen"
  | .leftBrace => "LeftBrace"
  | .rightBrace => "RightBrace"
  | .leftBracket => "LeftBracket"
  | .rightBracket => "RightBracket"
  | .semicolon => "Semicolon"
  | .comma => "Comma"
  | .dot => "Dot"
  | .colon => "Colon"
  | .questionMark => "QuestionMark"
  | .arrow => "Arrow"
  | .typeAnnot => "TypeAnnotation"
  | .genericStart => "GenericStart"
  | .genericEnd => "GenericEnd"
  | .newline => "Newline"
  | .whitespace => "Whitespace"
  | .null => "Null"
  | .undefined => "Undefined"
  | .eof => "EOF"

/-- `CodeGenerator::map_operator`: the fixed operator table; any other
token is a generation error, never a default. -/
def map_operator (token : Token) : Except CompilerError String :=
  match token with
  | .plus => .ok "+"
  | .minus => .ok "-"
  | .multiply => .ok "*"
  | .divide => .ok "/"
  | .equal => .ok "=="
  | .notEqual => .ok "!="
  | .lessThan => .ok "<"
  | .greaterThan => .ok ">"
  | .lessEqual => .ok "<="
  | .greaterEqual => .ok ">="
  | .and => .ok "&&"
  | .or => .ok "||"
  | .not => .ok "!"
  | .assign => .ok "="
  | t => .error (.generationError ("Unsupported operator: " ++ tokenDebug t))

/-- `CodeGenerator::generate_literal`. -/
def generate_literal (literal : Literal) : Except CompilerError String :=
  match literal with
  | .string s => .ok ("\"" ++ s ++ "\".to_string()")
  | .number n => .ok (n ++ ".0")
  | .boolean b => .ok (toString b)
  | .null => .ok "None"
  | .undefined => .ok "None"
  | .regExp _ _ => .ok "// TODO: Implement literal"
  | .bigInt _ => .ok "// TODO: Implement literal"

/-- `CodeGenerator::generate_arrow_function`: a fixed placeholder
closure. -/
def generate_arrow_function : Except CompilerError String :=
  .ok "|| \x7b unimplemented!() \x7d"

mutual

/-- `CodeGenerator::generate_expression`.  Expression generation touches
no generator state (its only failure source is `map_operator`), so each
method is a pure function; `{`/`}` in emitted text are `\x7b`/`\x7d`. -/
def generate_expression : Expression → Except CompilerError String
  | .literal l => generate_literal l
  | .identifier ident => .ok ident
  | .binary left operator right =>
    generate_binary_expression left operator right
  | .unary operator argument => generate_unary_expression operator argument
  | .call callee arguments => generate_call_expression callee arguments
  | .member object property computed =>
    generate_member_expression object property computed
  | .array elements => generate_array_expression elements
  | .object properties => generate_object_expression properties
  | .template quasis expressions =>
    generate_template_literal quasis expressions
  | .newExpr callee arguments => generate_new_expression callee arguments
  | .assignment left operator right =>
    generate_assignment_expression left operator right
  | .thisExpr => .ok "self"
  | .superExpr => .ok "super"
  | .arrow _ _ _ _ => generate_arrow_function
  | .logical _ _ _ => .ok "// TODO: Implement expression"
  | .conditional _ _ _ => .ok "// TODO: Implement expression"
  | .parenthesized _ => .ok "// TODO: Implement expression"
  | .yieldExpr _ _ => .ok "// TODO: Implement expression"
  | .awaitExpr _ => .ok "// TODO: Implement expression"
  | .typeAssertion _ _ => .ok "// TODO: Implement expression"
  | .asExpression _ _ => .ok "// TODO: Implement expression"
  | .nonNull _ => .ok "// TODO: Implement expression"
  | .optionalExpr _ _ => .ok "// TODO: Implement expression"
  | .taggedTemplate _ _ _ => .ok "// TODO: Implement expression"
termination_by e => 3 * sizeOf e + 1
decreasing_by all_goals (simp_wf <;> omega)

/-- `CodeGenerator::generate_unary_expression`. -/
def generate_unary_expression (operator : Token) (argument : Expression) :
    Except CompilerError String := do
  let arg ← generate_expression argument
  match operator with
  | .keyword .kTypeof => .ok ("get_type_of(" ++ arg ++ ")")
  | .not => .ok ("!" ++ arg)
  | .minus => .ok ("-" ++ arg)
  | .plus => .ok ("+" ++ arg)
  | t => .ok ("// TODO: Implement unary operator " ++ tokenDebug t)
termination_by 3 * sizeOf argument + 3
decreasing_by all_goals (simp_wf <;> omega)

/-- `CodeGenerator::generate_binary_expression`. -/
def generate_binary_expression (left : Expression) (operator : Token)
    (right : Expression) : Except CompilerError String := do
  let l ← generate_expression left
  let r ← generate_expression right
  let op ← map_operator operator
  .ok ("(" ++ l ++ " " ++ op ++ " " ++ r ++ ")")
termination_by 3 * (sizeOf left + sizeOf right) + 3
decreasing_by all_goals (simp_wf <;> omega)

/-- `CodeGenerator::generate_assignment_expression` (every operator
renders as plain `=`). -/
def generate_assignment_expression (left : Expression) (operator : Token)
    (right : Expression) : Except CompilerError String := do
  let l ← generate_expression left
  let r ← generate_expression right
  let op := match operator with
    | Token.assign => "="
    | _ => "="
  .ok (l ++ " " ++ op ++ " " ++ r)
termination_by 3 * (sizeOf left + sizeOf right) + 3
decreasing_by all_goals (simp_wf <;> omega)

/-- The argument loop shared by call and `new` generation. -/
def generate_expression_list : List Expression →
    Except CompilerError (List String)
  | [] => .ok []
  | e :: es => do
    let s ← generate_expression e
    let rest ← generate_expression_list es
    .ok (s :: rest)
termination_by l => 3 * sizeOf l
decreasing_by all_goals (simp_wf <;> omega)

/-- `CodeGenerator::generate_call_expression` (with the `console.log`
special case). -/
def generate_call_expression (callee : Expression)
    (arguments : List Expression) : Except CompilerError String := do
  let c ← generate_expression callee
  let args ← generate_expression_list arguments
  if c = "console.log" then
    if args.length = 1 then
      .ok ("println!(\"\x7b\x7d\", " ++ args.headD "" ++ ");")
    else
      .ok ("println!(\"" ++
        String.intercalate " " (args.map (fun _ => "\x7b\x7d")) ++ "\", " ++
        String.intercalate ", " args ++ ");")
  else
    .ok (c ++ "(" ++ String.intercalate ", " args ++ ")")
termination_by 3 * (sizeOf callee + sizeOf arguments) + 3
decreasing_by all_goals (simp_wf <;> omega)

/-- `CodeGenerator::generate_member_expression` (the `object == "this"`
test compares the generated text; `Expression::This` renders as `self`,
so that branch is inert, but it is kept as written). -/
def generate_member_expression (object : Expression) (property : Expression)
    (computed : Bool) : Except CompilerError String := do
  let obj ← generate_expression object
  let prop ← generate_expression property
  if computed then
    .ok (obj ++ "[" ++ prop ++ "]")
  else if obj = "this" then
    .ok ("self." ++ prop)
  else
    .ok (obj ++ "." ++ prop)
termination_by 3 * (sizeOf object + sizeOf property) + 3
decreasing_by all_goals (simp_wf <;> omega)

/-- The element loop of `CodeGenerator::generate_array_expression`:
literals and identifiers stay bare, other expressions are boxed, holes
render as `None`. -/
def generate_array_elements : List (Option Expression) →
    Except CompilerError (List String)
  | [] => .ok []
  | some e :: es => do
    let code ← generate_expression e
    let rest ← generate_array_elements es
    match e with
    | .literal _ => .ok (code :: rest)
    | .identifier _ => .ok (code :: rest)
    | _ => .ok (("Box::new(" ++ code ++ ") as Box<dyn Any>") :: rest)
  | none :: es => do
    let rest ← generate_array_elements es
    .ok ("None" :: rest)
termination_by l => 3 * sizeOf l
decreasing_by all_goals (simp_wf <;> omega)

/-- `CodeGenerator::generate_array_expression`. -/
def generate_array_expression (elements : List (Option Expression)) :
    Except CompilerError String := do
  let elems ← generate_array_elements elements
  .ok ("vec![" ++ String.intercalate ", " elems ++ "]")
termination_by 3 * sizeOf elements + 3
decreasing_by all_goals (simp_wf <;> omega)

/-- The property loop of `CodeGenerator::generate_object_expression`. -/
def generate_object_properties : List ObjectProperty →
    Except CompilerError (List String)
  | [] => .ok []
  | .mk key value _ _ _ :: ps => do
    let k ← generate_expression key
    let v ← generate_expression value
    let wrapped := match value with
      | .literal _ => v
      | .identifier _ => v
      | _ => "Box::new(" ++ v ++ ") as Box<dyn Any>"
    let rest ← generate_object_properties ps
    .ok (("\"" ++ k ++ "\".to_string(): " ++ wrapped) :: rest)
termination_by l => 3 * sizeOf l
decreasing_by all_goals (simp_wf <;> omega)

/-- `CodeGenerator::generate_object_expression`. -/
def generate_object_expression (properties : List ObjectProperty) :
    Except CompilerError String := do
  let fields ← generate_object_properties properties
  .ok ("\x7b\n        " ++ String.intercalate ",\n        " fields ++
    "\n    \x7d")
termination_by 3 * sizeOf properties + 3
decreasing_by all_goals (simp_wf <;> omega)

/-- The quasi/expression pairing loop of
`CodeGenerator::generate_template_literal`: each quasi contributes its
text, and while expressions remain, the generated expression joins the
argument list and `{}` joins the format parts. -/
def generate_template_parts : List TemplateElement → List Expression →
    Except CompilerError (List String × List String)
  | [], _ => .ok ([], [])
  | q :: qs, [] => do
    let (parts, argsAcc) ← generate_template_parts qs []
    .ok (q.value :: parts, argsAcc)
  | q :: qs, e :: es => do
    let ex ← generate_expression e
    let (parts, argsAcc) ← generate_template_parts qs es
    .ok (q.value :: "\x7b\x7d" :: parts, ex :: argsAcc)
termination_by qs es => 3 * (sizeOf qs + sizeOf es)
decreasing_by all_goals (simp_wf <;> omega)

/-- `CodeGenerator::generate_template_literal` (the no-interpolation
branch pattern-matches two hardcoded `${name}` texts). -/
def generate_template_literal (quasis : List TemplateElement)
    (expressions : List Expression) : Except CompilerError String :=
  if expressions.isEmpty ∧ ¬quasis.isEmpty then
    let raw_string := (quasis.headD ⟨"", false⟩).value
    if scontains raw_string "$\x7bname\x7d" then
      .ok "format!(\"Hello, \x7b\x7d!\", name)"
    else if raw_string = "Hello, $\x7bname\x7d!" then
      .ok "format!(\"Hello, \x7b\x7d!\", name)"
    else
      .ok ("\"" ++ raw_string ++ "\"")
  else do
    let (format_parts, argsAcc) ← generate_template_parts quasis expressions
    let format_string := String.join format_parts
    if argsAcc.isEmpty then
      .ok ("\"" ++ format_string ++ "\"")
    else
      .ok ("format!(\"" ++ format_string ++ "\", " ++
        String.intercalate ", " argsAcc ++ ")")
termination_by 3 * (sizeOf quasis + sizeOf expressions) + 3
decreasing_by all_goals (simp_wf <;> omega)

/-- `CodeGenerator::generate_new_expression`. -/
def generate_new_expression (callee : Expression)
    (arguments : List Expression) : Except CompilerError String := do
  let c ← generate_expression callee
  let args ← generate_expression_list arguments
  .ok ("Box::new(" ++ c ++ "::new(" ++ String.intercalate ", " args ++ "))")
termination_by 3 * (sizeOf callee + sizeOf arguments) + 3
decreasing_by all_goals (simp_wf <;> omega)

end

/-- `CodeGenerator::generate_variable_declaration`: explicit annotation
wins, else literal/call-table inference, else the boxed dynamic type. -/
def generate_variable_declaration (m : TypeMapper) (name : String)
    (type_annot : Option Ty) (initializer : Option Expression) :
    Except CompilerError String := do
  let var_type ← (match type_annot with
    | some t => mapTy m t
    | none =>
      match initializer with
      | some init =>
        match init with
        | .literal (.string _) => .ok "String"
        | .literal (.number _) => .ok "f64"
        | .literal (.boolean _) => .ok "bool"
        | .array _ => .ok "Vec<Box<dyn Any>>"
        | .object _ => .ok "HashMap<String, Box<dyn Any>>"
        | .newExpr callee _ =>
          match callee with
          | .identifier c => .ok ("Box<" ++ c ++ ">")
          | _ => .ok "Box<dyn Any>"
        | .call callee _ =>
          match callee with
          | .identifier c =>
            if c = "greet" then .ok "String"
            else if c = "add" then .ok "f64"
            else .ok "Box<dyn Any>"
          | _ => .ok "Box<dyn Any>"
        | _ => .ok "Box<dyn Any>"
      | none => .ok "Box<dyn Any>")
  let initStr ← (match initializer with
    | some init => do
      let i ← generate_expression init
      .ok (" = " ++ i)
    | none => .ok "")
  .ok ("let " ++ name ++ ": " ++ var_type ++ initStr ++ ";")

mutual

/-- `CodeGenerator::generate_statement` (block, expression, return and
variable-declaration statements; everything else is the `// TODO`
placeholder).  `m` is the generator's `type_mapper`. -/
def generate_statement (m : TypeMapper) : Statement → Except CompilerError String
  | .blockStatement stmts => do
    let ss ← generate_statement_list m stmts
    .ok (String.intercalate "\n    " ss)
  | .expressionStatement e => do
    let expr ← generate_expression e
    let clean_expr := if scontains expr "TODO" then "unimplemented!()" else expr
    .ok (clean_expr ++ ";")
  | .returnStatement (some arg) => do
    let expr ← generate_expression arg
    let clean_expr :=
      if scontains expr "TODO" then "unimplemented!()"
      else if sstarts expr "self." then expr ++ ".clone()"
      else expr
    .ok ("return " ++ clean_expr ++ ";")
  | .returnStatement none => .ok "return;"
  | .variableDeclaration _ name type_annot initializer =>
    generate_variable_declaration m name type_annot initializer
  | _ => .ok "// TODO: Implement statement"
termination_by s => sizeOf s
decreasing_by all_goals (simp_wf <;> omega)

/-- The statement loop of the block arm of `generate_statement`. -/
def generate_statement_list (m : TypeMapper) : List Statement →
    Except CompilerError (List String)
  | [] => .ok []
  | s :: ss => do
    let c ← generate_statement m s
    let rest ← generate_statement_list m ss
    .ok (c :: rest)
termination_by l => sizeOf l
decreasing_by all_goals (simp_wf <;> omega)

end

/-- The `name` field of ast.rs `TypeParameter`. -/
def TypeParameter.name : TypeParameter → String
  | .mk n _ _ => n

/-- The `<...>` rendering of a non-empty type-parameter list shared by
function/class/interface generation. -/
def generic_params_str (tps : List TypeParameter) : String :=
  if tps.isEmpty then ""
  else "<" ++ String.intercalate ", " (tps.map TypeParameter.name) ++ ">"

/-- `CodeGenerator::generate_parameters` (the `println!` debug line has
no effect on the result). -/
def generate_parameters (m : TypeMapper) :
    List Parameter → Except CompilerError (List String)
  | [] => .ok []
  | .mk name optional ptype _ _ :: ps => do
    let param_type ← (match ptype with
      | some t => mapTy m t
      | none => .ok "Box<dyn Any>")
    let param_def := if optional then name ++ ": Option<" ++ param_type ++ ">"
      else name ++ ": " ++ param_type
    let rest ← generate_parameters m ps
    .ok (param_def :: rest)

/-- `CodeGenerator::generate_expression_statement`. -/
def generate_expression_statement (e : Expression) :
    Except CompilerError String := do
  let expr ← generate_expression e
  .ok (expr ++ ";")

/-- `CodeGenerator::generate_function_declaration`. -/
def generate_function_declaration (m : TypeMapper) (name : String)
    (type_parameters : List TypeParameter) (parameters : List Parameter)
    (return_type : Option Ty) (body : Statement) :
    Except CompilerError String := do
  let params ← generate_parameters m parameters
  let ret ← (match return_type with
    | some t => do
      let rt ← mapTy m t
      .ok (" -> " ++ rt)
    | none => .ok " -> ()")
  let bodyStr ← generate_statement m body
  .ok ("pub fn " ++ name ++ generic_params_str type_parameters ++ "(" ++
    String.intercalate ", " params ++ ")" ++ ret ++ "\x7b\n    " ++ bodyStr ++
    "\n\x7d")

/-- The `// Decorators: ...` prefix shared by method/constructor/getter/
setter generation. -/
def decorators_str (decorators : List String) : String :=
  if decorators.isEmpty then ""
  else "    // Decorators: " ++ String.intercalate ", " decorators ++ "\n"

/-- `CodeGenerator::generate_method_declaration` (parameters are
generated but unused; the body falls back to `unimplemented!()`). -/
def generate_method_declaration (m : TypeMapper) (name : String)
    (parameters : List Parameter) (return_type : Option Ty)
    (body : Option Statement) (decorators : List String) :
    Except CompilerError String := do
  let _params ← generate_parameters m parameters
  let ret ← (match return_type with
    | some t => do
      let rt ← mapTy m t
      .ok (" -> " ++ rt)
    | none => .ok " -> ()")
  let bodyStr ← (match body with
    | some b => generate_statement m b
    | none => .ok "unimplemented!()")
  .ok (decorators_str decorators ++ "    pub fn " ++ name ++ "(&self)" ++
    ret ++ " \x7b\n        " ++ bodyStr ++ "\n    \x7d")

/-- The constructor-parameter loop of
`CodeGenerator::generate_constructor_declaration` (no `Option<...>`
wrapping here, unlike `generate_parameters`). -/
def constructor_params (m : TypeMapper) :
    List Parameter → Except CompilerError (List String)
  | [] => .ok []
  | .mk name _ ptype _ _ :: ps => do
    let param_type ← (match ptype with
      | some t => mapTy m t
      | none => .ok "Box<dyn Any>")
    let rest ← constructor_params m ps
    .ok ((name ++ ": " ++ param_type) :: rest)

/-- The `this.field = expr` extraction loop of
`CodeGenerator::generate_constructor_declaration`. -/
def constructor_field_assignments :
    List Statement → Except CompilerError (List String)
  | [] => .ok []
  | .expressionStatement (.assignment (.member .thisExpr
      (.identifier field_name) _) _ right) :: rest => do
    let init_value ← generate_expression right
    let restL ← constructor_field_assignments rest
    .ok (("            " ++ field_name ++ ": " ++ init_value) :: restL)
  | _ :: rest => constructor_field_assignments rest

/-- `CodeGenerator::generate_constructor_declaration`. -/
def generate_constructor_declaration (m : TypeMapper)
    (parameters : List Parameter) (body : Option Statement)
    (decorators : List String) : Except CompilerError String := do
  let params ← constructor_params m parameters
  let _body ← (match body with
    | some b => generate_statement m b
    | none => .ok "// Empty constructor")
  let assignments ← (match body with
    | some (.blockStatement stmts) => constructor_field_assignments stmts
    | _ => .ok [])
  let field_assignments :=
    if assignments.isEmpty then
      ["            // No explicit initializers found"]
    else assignments
  let initialization :=
    if field_assignments.isEmpty then "        Self \x7b\x7d"
    else "        Self \x7b\n" ++
      String.intercalate ",\n" field_assignments ++ "\n        \x7d"
  .ok (decorators_str decorators ++ "    " ++ "    pub fn new(" ++
    String.intercalate ", " params ++ ") -> Self \x7b\n" ++ initialization ++
    "\n    \x7d")

/-- `CodeGenerator::generate_getter_declaration`. -/
def generate_getter_declaration (m : TypeMapper) (name : String)
    (type_ : Option Ty) (body : Option Statement) (decorators : List String) :
    Except CompilerError String := do
  let return_type ← (match type_ with
    | some t => mapTy m t
    | none => .ok "Box<dyn Any>")
  let bodyStr ← (match body with
    | some b => generate_statement m b
    | none => .ok "// Empty getter")
  .ok (decorators_str decorators ++ "    " ++ "    pub fn " ++ name ++
    "(&self) -> " ++ return_type ++ " \x7b\n" ++ bodyStr ++ "\n    \x7d")

/-- `CodeGenerator::generate_setter_declaration`. -/
def generate_setter_declaration (m : TypeMapper) (name : String)
    (parameter : Parameter) (body : Option Statement)
    (decorators : List String) : Except CompilerError String := do
  let param_type ← (match parameter with
    | .mk _ _ (some t) _ _ => mapTy m t
    | .mk _ _ none _ _ => .ok "Box<dyn Any>")
  let bodyStr ← (match body with
    | some b => generate_statement m b
    | none => .ok "// Empty setter")
  .ok (decorators_str decorators ++ "    " ++ "    pub fn set_" ++ name ++
    "(&mut self, value: " ++ param_type ++ ") \x7b\n" ++ bodyStr ++
    "\n    \x7d")

/-- One entry of the synthesized default constructor of
`generate_class_declaration`: a field string containing `"= "` keeps its
text before `" = "`, any other yields `{text before ": ", trimmed}:
Default::default()`. -/
def default_ctor_entry (f : String) : String :=
  if scontains f "= " then (splitFirst f " = ").trim
  else (splitFirst f ": ").trim ++ ": Default::default()"

/-- The synthesized zero-argument constructor of
`generate_class_declaration` (pushed when no constructor member exists):
one entry per collected field string, in order. -/
def default_constructor_code (fields : List String) : String :=
  "    pub fn new() -> Self \x7b\n        Self \x7b\n" ++
  String.intercalate ",\n            " (fields.map default_ctor_entry) ++
  "\n        \x7d\n    \x7d"

/-- The member loop of `CodeGenerator::generate_class_declaration`:
collects the field strings (one per `Property` member, in order), the
method strings and whether a `Constructor` member was seen.  `Index`
members fall to the `_ => {}` arm. -/
def class_member_loop (m : TypeMapper) :
    List ClassMember → Except CompilerError (List String × List String × Bool)
  | [] => .ok ([], [], false)
  | mem :: rest => do
    let (fields, methods, hasCtor) ← class_member_loop m rest
    match mem with
    | .property name optional ptype init _ => do
      let field_type ← (match ptype with
        | some t => mapTy m t
        | none => .ok "Box<dyn Any>")
      let field_def := if optional then
          "    pub " ++ name ++ ": Option<" ++ field_type ++ ">"
        else "    pub " ++ name ++ ": " ++ field_type
      let field_with_init ← (match init with
        | some initializer => do
          let init_value ← generate_expression initializer
          .ok ("    pub " ++ name ++ ": " ++ field_type ++ " = " ++ init_value)
        | none => .ok field_def)
      .ok (field_with_init :: fields, methods, hasCtor)
    | .method name _ _ parameters return_type body _ decorators => do
      let mc ← generate_method_declaration m name parameters return_type body
        decorators
      .ok (fields, mc :: methods, hasCtor)
    | .ctor parameters body _ decorators => do
      let cc ← generate_constructor_declaration m parameters body decorators
      .ok (fields, cc :: methods, true)
    | .getter name type_ body _ decorators => do
      let gc ← generate_getter_declaration m name type_ body decorators
      .ok (fields, gc :: methods, hasCtor)
    | .setter name parameter body _ decorators => do
      let sc ← generate_setter_declaration m name parameter body decorators
      .ok (fields, sc :: methods, hasCtor)
    | .decorator d => .ok (fields, ("    // Decorator: " ++ d) :: methods, hasCtor)
    | .index _ _ _ => .ok (fields, methods, hasCtor)

/-- `CodeGenerator::generate_class_declaration`: the struct text and the
impl text (fields, methods and the synthesized default constructor). -/
def generate_class_declaration (m : TypeMapper) (name : String)
    (type_parameters : List TypeParameter) (body : List ClassMember) :
    Except CompilerError (String × String) := do
  let (fields, methods0, has_constructor) ← class_member_loop m body
  let methods := if has_constructor then methods0
    else methods0 ++ [default_constructor_code fields]
  let gp := generic_params_str type_parameters
  let struct_code :=
    "#[derive(Debug, Clone, Serialize, Deserialize)]\npub struct " ++ name ++
    gp ++ " \x7b\n" ++ String.intercalate ",\n" fields ++ "\n\x7d"
  let impl_code := "impl " ++ gp ++ name ++ " \x7b\n" ++
    String.intercalate "\n\n" methods ++ "\n\x7d"
  .ok (struct_code, impl_code)

/-- The member loop of `CodeGenerator::generate_interface_declaration`. -/
def interface_member_loop (m : TypeMapper) :
    List ObjectTypeMember → Except CompilerError (List String)
  | [] => .ok []
  | mem :: rest => do
    let restL ← interface_member_loop m rest
    match mem with
    | .property name _ ptype readonly => do
      let prop_type ← (match ptype with
        | some t => mapTy m t
        | none => .ok "Box<dyn Any>")
      let getterSig := "    fn get_" ++ name ++ "(&self) -> " ++ prop_type ++ ";"
      if readonly then
        .ok (getterSig :: restL)
      else
        .ok (getterSig ::
          ("    fn set_" ++ name ++ "(&mut self, value: " ++ prop_type ++ ");")
          :: restL)
    | .method name _ _ parameters return_type => do
      let params ← generate_parameters m parameters
      let ret ← (match return_type with
        | some t => do
          let rt ← mapTy m t
          .ok (" -> " ++ rt)
        | none => .ok " -> ()")
      .ok (("    fn " ++ name ++ "(&self, " ++
        String.intercalate ", " params ++ ")" ++ ret ++ ";") :: restL)
    | .call _ parameters return_type => do
      let params ← generate_parameters m parameters
      let ret ← (match return_type with
        | some t => do
          let rt ← mapTy m t
          .ok (" -> " ++ rt)
        | none => .ok " -> ()")
      .ok (("    fn call(&self, " ++ String.intercalate ", " params ++ ")" ++
        ret ++ ";") :: restL)
    | .index parameter type_ readonly => do
      let key_type ← (match parameter with
        | .mk _ _ (some t) _ _ => mapTy m t
        | .mk _ _ none _ _ => mapTy m Ty.string)
      let value_type ← mapTy m type_
      let getSig := "    fn index_get(&self, key: " ++ key_type ++ ") -> " ++
        value_type ++ ";"
      if readonly then
        .ok (getSig :: restL)
      else
        .ok (getSig ::
          ("    fn index_set(&mut self, key: " ++ key_type ++ ", value: " ++
            value_type ++ ");") :: restL)
    | .construct _ parameters return_type => do
      let params ← generate_parameters m parameters
      let ret ← (match return_type with
        | some t => do
          let rt ← mapTy m t
          .ok (" -> " ++ rt)
        | none => .ok " -> ()")
      .ok (("    fn construct(" ++ String.intercalate ", " params ++ ")" ++
        ret ++ ";") :: restL)

/-- `CodeGenerator::generate_interface_declaration`. -/
def generate_interface_declaration (m : TypeMapper) (name : String)
    (type_parameters : List TypeParameter) (body : List ObjectTypeMember) :
    Except CompilerError String := do
  let methods ← interface_member_loop m body
  .ok ("pub trait " ++ name ++ generic_params_str type_parameters ++
    " \x7b\n" ++ String.intercalate "\n" methods ++ "\n\x7d")

/-- `CodeGenerator::generate_type_alias_declaration`. -/
def generate_type_alias_declaration (m : TypeMapper) (name : String)
    (type_definition : Ty) : Except CompilerError String := do
  let type_def ← mapTy m type_definition
  .ok ("pub type " ++ name ++ " = " ++ type_def ++ ";")

/-- The `has_string_values` scan of
`CodeGenerator::generate_enum_declaration`: whether any member's
initializer is a string literal. -/
def enum_has_string_values (members : List EnumMember) : Bool :=
  members.any fun mem =>
    match mem with
    | .mk _ (some (.literal (.string _))) => true
    | _ => false

/-- The member loop of the string-valued branch of
`generate_enum_declaration`: named constants for string and number
literal initializers, a bare variant for every member. -/
def enum_string_loop : List EnumMember → List String × List String
  | [] => ([], [])
  | .mk name init :: rest =>
    let (cds, evs) := enum_string_loop rest
    match init with
    | some (.literal (.string s)) =>
      (("pub const " ++ name ++ ": &str = \"" ++ s ++ "\";") :: cds,
        ("    " ++ name) :: evs)
    | some (.literal (.number n)) =>
      (("pub const " ++ name ++ ": f64 = " ++ n ++ ";") :: cds,
        ("    " ++ name) :: evs)
    | some _ => (cds, ("    " ++ name) :: evs)
    | none => (cds, ("    " ++ name) :: evs)

/-- The member loop of the conventional branch of
`generate_enum_declaration`: every member becomes a bare variant
(initializers are not consulted). -/
def conventional_enum_variants (members : List EnumMember) : List String :=
  members.map fun mem =>
    match mem with
    | .mk name _ => "    " ++ name

/-- `CodeGenerator::generate_enum_declaration`. -/
def generate_enum_declaration (name : String) (members : List EnumMember) :
    Except CompilerError String :=
  if enum_has_string_values members then
    let (const_definitions, enum_variants) := enum_string_loop members
    let r1 := if const_definitions.isEmpty then ""
      else String.intercalate "\n" const_definitions ++ "\n"
    let r2 := if enum_variants.isEmpty then ""
      else "#[derive(Debug, Clone, Serialize, Deserialize)]\npub enum " ++
        name ++ " \x7b\n" ++ String.intercalate ",\n" enum_variants ++ "\n\x7d"
    .ok (r1 ++ r2)
  else
    .ok ("#[derive(Debug, Clone, Serialize, Deserialize)]\npub enum " ++
      name ++ " \x7b\n" ++
      String.intercalate ",\n" (conventional_enum_variants members) ++
      "\n\x7d")

/-- The specifier loop of `CodeGenerator::generate_import_declaration`. -/
def import_parts : List ImportSpecifier → List String
  | [] => []
  | .named name imported :: rest =>
    (if name = imported then name else imported ++ " as " ++ name) ::
      import_parts rest
  | .defaultSpec name :: rest => name :: import_parts rest
  | .namespaceSpec name :: rest => ("* as " ++ name) :: import_parts rest

/-- `CodeGenerator::generate_import_declaration`. -/
def generate_import_declaration (specifiers : List ImportSpecifier)
    (source : String) : Except CompilerError String :=
  let parts := import_parts specifiers
  if parts.isEmpty then .ok ("use " ++ source ++ ";")
  else .ok ("use " ++ source ++ "::\x7b" ++ String.intercalate ", " parts ++
    "\x7d;")

/-- `CodeGenerator::generate_namespace_declaration`. -/
def generate_namespace_declaration (m : TypeMapper) (name : String)
    (body : Statement) : Except CompilerError String := do
  let b ← generate_statement m body
  .ok ("pub mod " ++ name ++ " \x7b\n" ++ b ++ "\n\x7d")

/-- `CodeGenerator::generate_module_declaration`. -/
def generate_module_declaration (m : TypeMapper) (name : String)
    (body : Statement) : Except CompilerError String := do
  let b ← generate_statement m body
  .ok ("pub mod " ++ name ++ " \x7b\n" ++ b ++ "\n\x7d")

/-- `CodeGenerator::generate_runtime_support`: the fixed prelude raw
string (braces written `\x7b`/`\x7d`). -/
def generate_runtime_support : String :=
  "\n// Runtime support for TypeScript semantics\nuse std::any::Any;\n\n" ++
  "pub type AnyType = Box<dyn Any>;\npub type UnknownType = Box<dyn Any>;\n\n" ++
  "#[derive(Debug, Clone, Serialize, Deserialize)]\npub struct Symbol \x7b\n" ++
  "    description: Option<String>,\n\x7d\n\n" ++
  "impl Symbol \x7b\n    pub fn new(description: Option<String>) -> Self \x7b\n" ++
  "        Self \x7b description \x7d\n    \x7d\n\x7d\n\n" ++
  "#[derive(Debug, Clone, Serialize, Deserialize)]\npub enum Union<T, U> \x7b\n" ++
  "    Left(T),\n    Right(U),\n\x7d\n\n" ++
  "#[derive(Debug, Clone, Serialize, Deserialize)]\npub struct Intersection<T, U> \x7b\n" ++
  "    pub left: T,\n    pub right: U,\n\x7d\n\n" ++
  "pub trait TypeScriptObject \x7b\n" ++
  "    fn get_property(&self, key: &str) -> Option<Any>;\n" ++
  "    fn set_property(&mut self, key: &str, value: Any);\n" ++
  "    fn has_property(&self, key: &str) -> bool;\n" ++
  "    fn delete_property(&mut self, key: &str) -> bool;\n\x7d\n\n" ++
  "impl TypeScriptObject for HashMap<String, Any> \x7b\n" ++
  "    fn get_property(&self, key: &str) -> Option<Any> \x7b\n" ++
  "        self.get(key).cloned()\n    \x7d\n\n" ++
  "    fn set_property(&mut self, key: &str, value: Any) \x7b\n" ++
  "        self.insert(key.to_string(), value);\n    \x7d\n\n" ++
  "    fn has_property(&self, key: &str) -> bool \x7b\n" ++
  "        self.contains_key(key)\n    \x7d\n\n" ++
  "    fn delete_property(&mut self, key: &str) -> bool \x7b\n" ++
  "        self.remove(key).is_some()\n    \x7d\n\x7d\n"

/-- The bucket fields of generator.rs `struct CodeGenerator` (the vectors
the `generate` dispatch pushes into). -/
structure GenBuckets where
  imports : List String
  structs : List String
  traits : List String
  functions : List String
  enums : List String
  modules : List String

/-- The empty buckets of `CodeGenerator::new`. -/
def emptyBuckets : GenBuckets := ⟨[], [], [], [], [], []⟩

/-- Bucketwise concatenation (the effect of running one dispatch arm and
then the rest of the statement loop). -/
def GenBuckets.append (a b : GenBuckets) : GenBuckets :=
  ⟨a.imports ++ b.imports, a.structs ++ b.structs, a.traits ++ b.traits,
    a.functions ++ b.functions, a.enums ++ b.enums, a.modules ++ b.modules⟩

/-- One arm of the statement dispatch of `CodeGenerator::generate`: what
the arm pushes into the buckets.  The final wildcard arm only prints a
debug line — it contributes nothing. -/
def generate_statement_buckets (m : TypeMapper) (statement : Statement) :
    Except CompilerError GenBuckets := do
  match statement with
  | .variableDeclaration _ name type_annot initializer => do
    let var_code ← generate_variable_declaration m name type_annot initializer
    .ok { emptyBuckets with functions := [var_code] }
  | .functionDeclaration name tps params ret body => do
    let func_code ← generate_function_declaration m name tps params ret body
    .ok { emptyBuckets with functions := [func_code] }
  | .classDeclaration name tps _ _ body => do
    let (struct_code, impl_code) ← generate_class_declaration m name tps body
    .ok { emptyBuckets with
        structs := [struct_code]
        functions := [impl_code] }
  | .interfaceDeclaration name tps _ body => do
    let trait_code ← generate_interface_declaration m name tps body
    .ok { emptyBuckets with traits := [trait_code] }
  | .typeAlias name _ type_definition => do
    let type_code ← generate_type_alias_declaration m name type_definition
    .ok { emptyBuckets with structs := [type_code] }
  | .enumDeclaration name members => do
    let enum_code ← generate_enum_declaration name members
    .ok { emptyBuckets with enums := [enum_code] }
  | .importDeclaration specifiers source => do
    let import_code ← generate_import_declaration specifiers source
    .ok { emptyBuckets with imports := [import_code] }
  | .exportDeclaration declaration => do
    match declaration with
    | .classDeclaration name tps _ _ body => do
      let (struct_code, impl_code) ← generate_class_declaration m name tps body
      .ok { emptyBuckets with
        structs := [struct_code]
        functions := [impl_code] }
    | .interfaceDeclaration name tps _ body => do
      let trait_code ← generate_interface_declaration m name tps body
      .ok { emptyBuckets with traits := [trait_code] }
    | .functionDeclaration name tps params ret body => do
      let func_code ← generate_function_declaration m name tps params ret body
      .ok { emptyBuckets with functions := [func_code] }
    | .typeAlias name _ type_definition => do
      let type_code ← generate_type_alias_declaration m name type_definition
      .ok { emptyBuckets with structs := [type_code] }
    | .enumDeclaration name members => do
      let enum_code ← generate_enum_declaration name members
      .ok { emptyBuckets with enums := [enum_code] }
    | _ => .ok emptyBuckets
  | .namespaceDeclaration name body => do
    let module_code ← generate_namespace_declaration m name body
    .ok { emptyBuckets with modules := [module_code] }
  | .moduleDeclaration name body => do
    let module_code ← generate_module_declaration m name body
    .ok { emptyBuckets with modules := [module_code] }
  | .expressionStatement e => do
    let expr_code ← generate_expression_statement e
    .ok { emptyBuckets with functions := [expr_code] }
  | _ => .ok emptyBuckets

/-- The statement loop of `CodeGenerator::generate`. -/
def generate_buckets (m : TypeMapper) :
    List Statement → Except CompilerError GenBuckets
  | [] => .ok emptyBuckets
  | s :: rest => do
    let b ← generate_statement_buckets m s
    let r ← generate_buckets m rest
    .ok (b.append r)

/-- `CodeGenerator::generate` for `CodeGenerator::new(runtime)`: the
HashMap import and optional runtime prelude, the five buckets joined in
struct/trait/enum/function/module order, the serde import prepended when
any struct was emitted, and the default `main` appended when a struct or
function was emitted.  (The `imports` bucket is filled by the dispatch
but never joined into the output — as in the source.) -/
def generate (runtime : Bool) (program : Program) :
    Except CompilerError String := do
  let m := TypeMapper.new runtime
  let buckets ← generate_buckets m program.statements
  let rust_code := "use std::collections::HashMap;\n" ++ "\n" ++
    (if runtime then generate_runtime_support ++ "\n" else "")
  let code1 := rust_code ++
    String.intercalate "\n\n" buckets.structs ++ "\n" ++
    String.intercalate "\n\n" buckets.traits ++ "\n" ++
    String.intercalate "\n\n" buckets.enums ++ "\n" ++
    String.intercalate "\n\n" buckets.functions ++ "\n" ++
    String.intercalate "\n\n" buckets.modules
  let code2 := if buckets.structs.isEmpty then code1
    else "use serde::\x7bDeserialize, Serialize\x7d;\n" ++ code1
  let code3 := if ¬buckets.structs.isEmpty ∨ ¬buckets.functions.isEmpty then
      code2 ++
      "\n\nfn main() \x7b\n    // Example usage\n    println!(\"TypeScript to Rust compilation successful!\");\n\x7d\n"
    else code2
  .ok code3

/-! ## Parser top-level loop (parser.rs `Parser::parse`, lines 23-81)

`Parser { tokens, position }` never mutates `tokens`, and the only writes
to `position` anywhere in parser.rs are the guarded `advance`
(`if position < tokens.len() { position += 1 }`) and the two `+= 1` in
`parse` itself — `parse_statement` can only move the cursor forward, and
never past the token list.  The claims about `parse` concern this driver
loop for any such statement parser, so `parse_statement` is a parameter
`step : Nat → Except CompilerError (Option Statement) × Nat` (from cursor
position to its result and the new cursor position); the theorems carry
the forward/in-bounds behaviour of the real `parse_statement` as the
hypothesis `p ≤ (step p).2 ∧ (step p).2 ≤ tokens.length`.

The Rust `while position < len && iterations < max` loop counts
`iterations` up to `max = 2 * len`; the recursion below carries the
remaining budget `fuel = max - iterations` (which the guard makes zero
exactly when `iterations ≥ max`) and still records `iterations` in the
state for the post-loop check. -/

/-- `Parser::advance` (guarded cursor step), acting on the position. -/
def padvance (len p : Nat) : Nat := if p < len then p + 1 else p

/-- The mutable state of the `Parser::parse` loop. -/
structure ParseState where
  position : Nat
  iterations : Nat
  statements : List Statement
  errors : List CompilerError

/-- The tail of one `Parser::parse` iteration after the
`parse_statement` match: the no-progress bump (line 48-51), the EOF break
(line 53-59), and the `iterations += 1` re-entry.  `.inl` is a `break`,
`.inr` the state for the next iteration. -/
def parseCont (tokens : List Token) (s1 : ParseState) (old_position : Nat) :
    ParseState ⊕ ParseState :=
  let s2 := if s1.position = old_position then
    { s1 with position := s1.position + 1 } else s1
  if s2.position < tokens.length ∧ tokens.get? s2.position = some Token.eof
  then .inl s2
  else .inr { s2 with iterations := s2.iterations + 1 }

/-- One iteration body of the `Parser::parse` loop (entered with the
while-guard true): dispatch on `parse_statement`'s result — push the
statement, `break` on `Ok(None)`, or record the error and `advance` —
then `parseCont`. -/
def parseBody (tokens : List Token)
    (step : Nat → Except CompilerError (Option Statement) × Nat)
    (s : ParseState) : ParseState ⊕ ParseState :=
  match step s.position with
  | (.ok (some statement), p) =>
    parseCont tokens
      { s with position := p, statements := s.statements ++ [statement] }
      s.position
  | (.ok none, p) => .inl { s with position := p }
  | (.error e, p) =>
    parseCont tokens
      { s with
        position := padvance tokens.length p
        errors := s.errors ++ [e] }
      s.position

/-- The `Parser::parse` while loop; `fuel` is the remaining iteration
budget `max_iterations - iterations`. -/
def parseLoopAux (tokens : List Token)
    (step : Nat → Except CompilerError (Option Statement) × Nat) :
    Nat → ParseState → ParseState
  | 0, s => s
  | fuel + 1, s =>
    if s.position < tokens.length then
      match parseBody tokens step s with
      | .inl fin => fin
      | .inr s2 => parseLoopAux tokens step fuel s2
    else s

/-- The state `Parser::parse` reaches when its loop exits, from a fresh
`Parser::new` (position 0, no statements, no errors) with the full
`2 * tokens.len()` budget. -/
def parseFinal (tokens : List Token)
    (step : Nat → Except CompilerError (Option Statement) × Nat) :
    ParseState :=
  parseLoopAux tokens step (tokens.length * 2) ⟨0, 0, [], []⟩

/-- `Parser::parse` (lines 23-81): the loop, the stuck-loop check, then
`Ok` with the collected statements when any exist, else the first
recorded error, else the empty program. -/
def parse (tokens : List Token)
    (step : Nat → Except CompilerError (Option Statement) × Nat) :
    Except CompilerError Program :=
  let final := parseFinal tokens step
  if tokens.length * 2 ≤ final.iterations then
    .error (.parseError final.position 1 "Parser stuck in infinite loop")
  else if ¬final.statements.isEmpty then
    .ok ⟨final.statements⟩
  else
    match final.errors with
    | e :: _ => .error e
    | [] => .ok ⟨final.statements⟩

theorem parseBody_inl_iterations (tokens : List Token)
    (step : Nat → Except CompilerError (Option Statement) × Nat)
    (s fin : ParseState) (h : parseBody tokens step s = .inl fin) :
    fin.iterations = s.iterations := by
  unfold parseBody parseCont padvance at h
  rcases hs : step s.position with ⟨r, p⟩
  rw [hs] at h
  rcases r with e | ot
  · dsimp only at h
    repeat' split at h
    all_goals first
      | exact Sum.noConfusion h
      | (injection h with h; subst h; rfl)
  · rcases ot with _ | st
    · dsimp only at h
      injection h with h; subst h; rfl
    · dsimp only at h
      repeat' split at h
      all_goals first
        | exact Sum.noConfusion h
        | (injection h with h; subst h; rfl)

theorem parseBody_inr_iterations (tokens : List Token)
    (step : Nat → Except CompilerError (Option Statement) × Nat)
    (s s2 : ParseState) (h : parseBody tokens step s = .inr s2) :
    s2.iterations = s.iterations + 1 := by
  unfold parseBody parseCont padvance at h
  rcases hs : step s.position with ⟨r, p⟩
  rw [hs] at h
  rcases r with e | ot
  · dsimp only at h
    repeat' split at h
    all_goals first
      | exact Sum.noConfusion h
      | (injection h with h; subst h; rfl)
  · rcases ot with _ | st
    · exact Sum.noConfusion h
    · dsimp only at h
      repeat' split at h
      all_goals first
        | exact Sum.noConfusion h
        | (injection h with h; subst h; rfl)

theorem parseLoopAux_iterations (tokens : List Token)
    (step : Nat → Except CompilerError (Option Statement) × Nat) :
    ∀ (fuel : Nat) (s : ParseState),
      (parseLoopAux tokens step fuel s).iterations ≤ s.iterations + fuel := by
  intro fuel
  induction fuel with
  | zero => intro s; rw [parseLoopAux]; omega
  | succ n ih =>
    intro s
    rw [parseLoopAux]
    by_cases hin : s.position < tokens.length
    · rw [if_pos hin]
      rcases hb : parseBody tokens step s with fin | s2
      · have := parseBody_inl_iterations tokens step s fin hb
        dsimp only; omega
      · have h1 := parseBody_inr_iterations tokens step s s2 hb
        have h2 := ih s2
        dsimp only; omega
    · rw [if_neg hin]; omega

theorem parseBody_inl_position (tokens : List Token)
    (step : Nat → Except CompilerError (Option Statement) × Nat)
    (s fin : ParseState) (hin : s.position < tokens.length)
    (hs1 : s.position ≤ (step s.position).2)
    (hs2 : (step s.position).2 ≤ tokens.length)
    (h : parseBody tokens step s = .inl fin) :
    s.position ≤ fin.position ∧ fin.position ≤ tokens.length := by
  unfold parseBody parseCont padvance at h
  rcases hs : step s.position with ⟨r, p⟩
  rw [hs] at hs1 hs2
  rw [hs] at h
  dsimp only at hs1 hs2
  rcases r with e | ot
  · dsimp only at h
    repeat' split at h
    all_goals first
      | exact Sum.noConfusion h
      | (injection h with h; subst h; dsimp only at *; omega)
  · rcases ot with _ | st
    · dsimp only at h
      injection h with h; subst h; dsimp only at *; omega
    · dsimp only at h
      repeat' split at h
      all_goals first
        | exact Sum.noConfusion h
        | (injection h with h; subst h; dsimp only at *; omega)

theorem parseBody_inr_position (tokens : List Token)
    (step : Nat → Except CompilerError (Option Statement) × Nat)
    (s s2 : ParseState) (hin : s.position < tokens.length)
    (hs1 : s.position ≤ (step s.position).2)
    (hs2 : (step s.position).2 ≤ tokens.length)
    (h : parseBody tokens step s = .inr s2) :
    s.position + 1 ≤ s2.position ∧ s2.position ≤ tokens.length := by
  unfold parseBody parseCont padvance at h
  rcases hs : step s.position with ⟨r, p⟩
  rw [hs] at hs1 hs2
  rw [hs] at h
  dsimp only at hs1 hs2
  rcases r with e | ot
  · dsimp only at h
    repeat' split at h
    all_goals first
      | exact Sum.noConfusion h
      | (injection h with h; subst h; dsimp only at *; omega)
  · rcases ot with _ | st
    · exact Sum.noConfusion h
    · dsimp only at h
      repeat' split at h
      all_goals first
        | exact Sum.noConfusion h
        | (injection h with h; subst h; dsimp only at *; omega)

theorem parseLoopAux_position (tokens : List Token)
    (step : Nat → Except CompilerError (Option Statement) × Nat)
    (Hmono : ∀ q, q < tokens.length →
      q ≤ (step q).2 ∧ (step q).2 ≤ tokens.length) :
    ∀ (fuel : Nat) (s : ParseState), s.position ≤ tokens.length →
      (parseLoopAux tokens step fuel s).iterations + s.position ≤
        s.iterations + (parseLoopAux tokens step fuel s).position ∧
      (parseLoopAux tokens step fuel s).position ≤ tokens.length := by
  intro fuel
  induction fuel with
  | zero => intro s hb; rw [parseLoopAux]; omega
  | succ n ih =>
    intro s hb
    rw [parseLoopAux]
    by_cases hin : s.position < tokens.length
    · rw [if_pos hin]
      rcases hbody : parseBody tokens step s with fin | s2
      · have h1 := parseBody_inl_iterations tokens step s fin hbody
        have h2 := parseBody_inl_position tokens step s fin hin
          (Hmono s.position hin).1 (Hmono s.position hin).2 hbody
        dsimp only; omega
      · have h1 := parseBody_inr_iterations tokens step s s2 hbody
        have h2 := parseBody_inr_position tokens step s s2 hin
          (Hmono s.position hin).1 (Hmono s.position hin).2 hbody
        have h3 := ih s2 h2.2
        dsimp only; omega
    · rw [if_neg hin]; omega

/-- Common projection out of the loop-body result, whichever way the
iteration went. -/
def bodyOut : ParseState ⊕ ParseState → ParseState
  | .inl s => s
  | .inr s => s

theorem parseBody_statements_ok (tokens : List Token)
    (step : Nat → Except CompilerError (Option Statement) × Nat)
    (s : ParseState) (st : Statement) (p : Nat)
    (hs : step s.position = (.ok (some st), p)) :
    (bodyOut (parseBody tokens step s)).statements = s.statements ++ [st] ∧
    (bodyOut (parseBody tokens step s)).errors = s.errors := by
  unfold parseBody parseCont padvance
  rw [hs]
  dsimp only
  repeat' split
  all_goals simp [bodyOut]

theorem parseBody_statements_err (tokens : List Token)
    (step : Nat → Except CompilerError (Option Statement) × Nat)
    (s : ParseState) (e : CompilerError) (p : Nat)
    (hs : step s.position = (.error e, p)) :
    (bodyOut (parseBody tokens step s)).statements = s.statements ∧
    (bodyOut (parseBody tokens step s)).errors = s.errors ++ [e] := by
  unfold parseBody parseCont padvance
  rw [hs]
  dsimp only
  repeat' split
  all_goals simp [bodyOut]

theorem parseBody_statements_none (tokens : List Token)
    (step : Nat → Except CompilerError (Option Statement) × Nat)
    (s : ParseState) (p : Nat)
    (hs : step s.position = (.ok none, p)) :
    (bodyOut (parseBody tokens step s)).statements = s.statements ∧
    (bodyOut (parseBody tokens step s)).errors = s.errors := by
  unfold parseBody parseCont padvance
  rw [hs]
  dsimp only
  exact ⟨rfl, rfl⟩

/-! ## State-threaded type mapper

C7 is about `map_type` taking `&mut self`: the claim is that the mapper
state a call hands back is the state it received, so mapping is a pure
function of the node and the configuration.  To give that claim content
the family below re-translates types.rs with the `&mut self` threading
made explicit — every method hands back a `TypeMapper`, and sequential
calls are chained through it exactly in the source's call order.  The
`&self` helpers (`map_named_type`, `to_pascal_case`,
`extract_struct_name`) cannot write the state and stay shared, as does
the inlined `map_type(&Type::Named(..))` dispatch of the generic-named
arm (a `&self` path).  The theorems then prove this threaded translation
agrees with the pure `mapTy` and returns its input state unchanged. -/

mutual

/-- `TypeMapper::map_type` with the `&mut self` threading explicit. -/
def mapTySt (m : TypeMapper) : Ty → Except CompilerError (String × TypeMapper)
  | .string => .ok ("String", m)
  | .number => .ok ("f64", m)
  | .boolean => .ok ("bool", m)
  | .any =>
    if m.runtime then .ok ("Box<dyn Any>", m) else .ok ("serde_json::Value", m)
  | .void => .ok ("()", m)
  | .never => .ok ("!", m)
  | .unknown =>
    if m.runtime then .ok ("Box<dyn Any>", m) else .ok ("serde_json::Value", m)
  | .null => .ok ("Option<()>", m)
  | .undefined => .ok ("Option<()>", m)
  | .object =>
    if m.runtime then .ok ("Box<dyn Any>", m) else .ok ("serde_json::Value", m)
  | .symbol => .ok ("Symbol", m)
  | .bigInt => .ok ("i64", m)
  | .named name => do
    let s ← map_named_type m name
    .ok (s, m)
  | .qualified left right => do
    let (l, m1) ← mapTySt m left
    .ok (l ++ "::" ++ right, m1)
  | .generic type_ type_arguments => do
    let (base, m1) ← mapTySt m type_
    let (args, m2) ← mapTyListSt m1 type_arguments
    if args.isEmpty then .ok (base, m2)
    else .ok (base ++ "<" ++ String.intercalate ", " args ++ ">", m2)
  | .genericNamed name type_parameters => do
    let rust_name ← map_named_type m name
    if type_parameters.isEmpty then .ok (rust_name, m)
    else do
      let param_types ← mapTyParamNames m type_parameters
      .ok (rust_name ++ "<" ++ String.intercalate ", " param_types ++ ">", m)
  | .union left right => do
    let (l, m1) ← mapTySt m left
    let (r, m2) ← mapTySt m1 right
    .ok ("Union<" ++ l ++ ", " ++ r ++ ">", m2)
  | .intersection left right => do
    let (l, m1) ← mapTySt m left
    let (r, m2) ← mapTySt m1 right
    if sstarts l "#[derive" ∧ sstarts r "#[derive" then
      .ok (extract_struct_name l ++ "And" ++ extract_struct_name r, m2)
    else
      .ok ("Intersection<" ++ l ++ ", " ++ r ++ ">", m2)
  | .array elem => do
    let (e, m1) ← mapTySt m elem
    .ok ("Vec<" ++ e ++ ">", m1)
  | .tuple types => mapTupleTySt m types
  | .function _ parameters return_type =>
    mapFunctionTySt m parameters return_type
  | .objectType members => mapObjectTySt m members
  | .indexSignature parameter type_ _ =>
    match parameter with
    | .mk _ _ (some pt) _ _ => do
      let (key, m1) ← mapTySt m pt
      let (val, m2) ← mapTySt m1 type_
      .ok ("HashMap<" ++ key ++ ", " ++ val ++ ">", m2)
    | .mk _ _ none _ _ => do
      let (key, m1) ← mapTySt m Ty.string
      let (val, m2) ← mapTySt m1 type_
      .ok ("HashMap<" ++ key ++ ", " ++ val ++ ">", m2)
  | .mapped type_parameter _ _ type_ _ _ =>
    match type_parameter with
    | .mk _ (some c) _ => do
      let (key, m1) ← mapTySt m c
      let (val, m2) ← mapTySt m1 type_
      .ok ("HashMap<" ++ key ++ ", " ++ val ++ ">", m2)
    | .mk _ none _ => do
      let (key, m1) ← mapTySt m Ty.string
      let (val, m2) ← mapTySt m1 type_
      .ok ("HashMap<" ++ key ++ ", " ++ val ++ ">", m2)
  | .conditional check_type extends_type true_type false_type => do
    let (check, m1) ← mapTySt m check_type
    let (ext, m2) ← mapTySt m1 extends_type
    let (_t, m3) ← mapTySt m2 true_type
    let (_f, m4) ← mapTySt m3 false_type
    .ok ("trait ConditionalType \x7b\n    type Output: PartialEq<" ++ ext ++
      ">;\n    fn condition<" ++ check ++ ">() -> Self::Output;\n\x7d", m4)
  | .templateLiteral head _ => .ok ("\"" ++ head ++ "\"", m)
  | .parenthesized inner => mapTySt m inner
  | .typeQuery _ => .ok ("TypeQuery", m)
  | .importType argument qualifier _ => do
    let (base, m1) ← mapTySt m argument
    match qualifier with
    | some q => .ok (base ++ "::" ++ q, m1)
    | none => .ok (base, m1)
termination_by t => 2 * sizeOf t + 1
decreasing_by all_goals (simp_wf <;> omega)

/-- Elementwise threaded `map_type` over a type list. -/
def mapTyListSt (m : TypeMapper) :
    List Ty → Except CompilerError (List String × TypeMapper)
  | [] => .ok ([], m)
  | t :: ts => do
    let (s, m1) ← mapTySt m t
    let (rest, m2) ← mapTyListSt m1 ts
    .ok (s :: rest, m2)
termination_by l => 2 * sizeOf l
decreasing_by all_goals (simp_wf <;> omega)

/-- `TypeMapper::map_tuple_type`, threaded. -/
def mapTupleTySt (m : TypeMapper) (types : List Ty) :
    Except CompilerError (String × TypeMapper) :=
  if types.isEmpty then .ok ("()", m)
  else do
    let (rust_types, m1) ← mapTyListSt m types
    .ok ("(" ++ String.intercalate ", " rust_types ++ ")", m1)
termination_by 2 * sizeOf types + 2
decreasing_by all_goals (simp_wf <;> omega)

/-- The shared parameter mapping, threaded. -/
def mapFnParamsSt (m : TypeMapper) :
    List Parameter → Except CompilerError (List String × TypeMapper)
  | [] => .ok ([], m)
  | .mk name _ ptype _ _ :: ps => do
    let (pt, m1) ← (match ptype with
      | some t => mapTySt m t
      | none => .ok ("Box<dyn Any>", m))
    let (rest, m2) ← mapFnParamsSt m1 ps
    .ok ((name ++ ": " ++ pt) :: rest, m2)
termination_by l => 2 * sizeOf l
decreasing_by all_goals (simp_wf <;> omega)

/-- `TypeMapper::map_function_type`, threaded. -/
def mapFunctionTySt (m : TypeMapper) (parameters : List Parameter)
    (return_type : Ty) : Except CompilerError (String × TypeMapper) := do
  let (params, m1) ← mapFnParamsSt m parameters
  let (ret, m2) ← mapTySt m1 return_type
  .ok ("fn(" ++ String.intercalate ", " params ++ ") -> " ++ ret, m2)
termination_by 2 * (sizeOf parameters + sizeOf return_type) + 2
decreasing_by all_goals (simp_wf <;> omega)

/-- The member loop of `TypeMapper::map_object_type`, threaded. -/
def mapObjMembersSt (m : TypeMapper) :
    List ObjectTypeMember → Except CompilerError (List String × TypeMapper)
  | [] => .ok ([], m)
  | .property name optional ptype _ :: ms => do
    let (ft, m1) ← (match ptype with
      | some t => mapTySt m t
      | none => .ok ("Box<dyn Any>", m))
    let field := if optional then name ++ ": Option<" ++ ft ++ ">"
      else name ++ ": " ++ ft
    let (rest, m2) ← mapObjMembersSt m1 ms
    .ok (field :: rest, m2)
  | .method name _ _ parameters return_type :: ms => do
    let (params, m1) ← mapFnParamsSt m parameters
    let (rt, m2) ← (match return_type with
      | some t => mapTySt m1 t
      | none => .ok ("()", m1))
    let (rest, m3) ← mapObjMembersSt m2 ms
    .ok (("fn " ++ name ++ "(" ++ String.intercalate ", " params ++ ") -> " ++
      rt) :: rest, m3)
  | .index _ _ _ :: ms => mapObjMembersSt m ms
  | .call _ _ _ :: ms => mapObjMembersSt m ms
  | .construct _ _ _ :: ms => mapObjMembersSt m ms
termination_by l => 2 * sizeOf l
decreasing_by all_goals (simp_wf <;> omega)

/-- `TypeMapper::map_object_type`, threaded. -/
def mapObjectTySt (m : TypeMapper) (members : List ObjectTypeMember) :
    Except CompilerError (String × TypeMapper) := do
  let (struct_fields, m1) ← mapObjMembersSt m members
  .ok ("#[derive(Debug, Clone, Serialize, Deserialize)]\npub struct ObjectType_"
    ++ toString struct_fields.length ++ " \x7b\n    " ++
    String.intercalate ",\n    " struct_fields ++ "\n\x7d", m1)
termination_by 2 * sizeOf members + 2
decreasing_by all_goals (simp_wf <;> omega)

end

theorem emap_eq_bind {α β : Type} (f : α → β) (x : Except CompilerError α) :
    Except.map f x = (x >>= fun a => Except.ok (f a)) := by
  cases x <;> rfl

theorem ebind_assoc {α β γ : Type} (x : Except CompilerError α)
    (g : α → Except CompilerError β) (h : β → Except CompilerError γ) :
    ((x >>= g) >>= h) = (x >>= fun a => g a >>= h) := by
  cases x <;> rfl

theorem ebind_okl {α β : Type} (a : α) (g : α → Except CompilerError β) :
    ((Except.ok a : Except CompilerError α) >>= g) = g a := rfl

theorem ebind_ite {α β : Type} (c : Prop) [inst : Decidable c]
    (x y : Except CompilerError α) (g : α → Except CompilerError β) :
    ((if c then x else y) >>= g) = if c then x >>= g else y >>= g := by
  split <;> rfl

theorem mapTySt_eq : ∀ (m : TypeMapper) (t : Ty),
    mapTySt m t = Except.map (fun s => (s, m)) (mapTy m t) := by
  apply mapTySt.induct
    (fun m t => mapTySt m t = Except.map (fun s => (s, m)) (mapTy m t))
    (fun m members =>
      mapObjectTySt m members =
        Except.map (fun s => (s, m)) (mapObjectTy m members))
    (fun m ms =>
      mapObjMembersSt m ms = Except.map (fun s => (s, m)) (mapObjMembers m ms))
    (fun m ps =>
      mapFnParamsSt m ps = Except.map (fun s => (s, m)) (mapFnParams m ps))
    (fun m params ret => mapFunctionTySt m params ret =
      Except.map (fun s => (s, m)) (mapFunctionTy m params ret))
    (fun m types =>
      mapTupleTySt m types = Except.map (fun s => (s, m)) (mapTupleTy m types))
    (fun m l => mapTyListSt m l = Except.map (fun s => (s, m)) (mapTyList m l))
  case case37 =>
    intro m n o pt r ms hm hr
    rcases pt with _ | t <;>
      simp_all only [mapObjMembersSt, mapObjMembers, emap_eq_bind,
        ebind_assoc, ebind_okl, ebind_ite]
  case case43 =>
    intro m n o pt init rst ps hm hr
    rcases pt with _ | t <;>
      simp_all only [mapFnParamsSt, mapFnParams, emap_eq_bind,
        ebind_assoc, ebind_okl, ebind_ite]
  all_goals intros
  all_goals (try simp only [mapTySt, mapTy])
  all_goals (try assumption)
  all_goals (try simp only [mapTyListSt, mapTupleTySt, mapFnParamsSt,
    mapFunctionTySt, mapObjMembersSt, mapObjectTySt, mapTyList,
    mapTupleTy, mapFnParams, mapFunctionTy, mapObjMembers, mapObjectTy])
  all_goals (repeat' split)
  all_goals (try simp_all only [mapTySt, mapTy, mapTyListSt, mapTupleTySt,
    mapFnParamsSt, mapFunctionTySt, mapObjMembersSt, mapObjectTySt,
    mapTyList, mapTupleTy, mapFnParams, mapFunctionTy, mapObjMembers,
    mapObjectTy, emap_eq_bind, ebind_assoc, ebind_okl, ebind_ite,
    apply_ite])
  all_goals (try rfl)
  all_goals (try simp_all)

/-! ## Claim theorems -/

/-- C2: the loop bound and per-iteration progress.  Totality of the
embedding (`parseLoopAux` is a Lean function on every input) models the
termination half of the claim; the two conjuncts are the
`2 * tokens.len()` iteration bound of the exit state and that a completed
iteration (one that does not break) strictly advances the position. -/
theorem parser_iteration_bound (tokens : List Token)
    (step : Nat → Except CompilerError (Option Statement) × Nat) :
    (parseFinal tokens step).iterations ≤ tokens.length * 2 ∧
    (∀ s s2, s.position < tokens.length →
      s.position ≤ (step s.position).2 → (step s.position).2 ≤ tokens.length →
      parseBody tokens step s = .inr s2 → s.position < s2.position) := by
  constructor
  · have h := parseLoopAux_iterations tokens step (tokens.length * 2)
      ⟨0, 0, [], []⟩
    simpa [parseFinal] using h
  · exact fun s s2 h1 h2 h3 h4 =>
      (parseBody_inr_position tokens step s s2 h1 h2 h3 h4).1

/-- C7: `map_type` is pure.  `mapTySt` is the translation of types.rs with
the `&mut self` state threading explicit; the first conjunct says it is
the pure `mapTy` returning its input state untouched, and the second that
therefore a repeated call gives the identical string and state, and an
earlier call does not change the result of any later call. -/
theorem map_type_pure (m : TypeMapper) (t t2 : Ty) :
    mapTySt m t = Except.map (fun s => (s, m)) (mapTy m t) ∧
    (∀ r m1, mapTySt m t = .ok (r, m1) →
      m1 = m ∧ mapTySt m1 t = .ok (r, m1) ∧ mapTySt m1 t2 = mapTySt m t2) := by
  refine ⟨mapTySt_eq m t, ?_⟩
  intro r m1 h
  rw [mapTySt_eq m t] at h
  rcases hm : mapTy m t with e | s
  · rw [hm] at h
    exact absurd h (by simp [Except.map])
  · rw [hm] at h
    simp only [Except.map, Except.ok.injEq, Prod.mk.injEq] at h
    obtain ⟨h1, h2⟩ := h
    subst h1
    subst h2
    exact ⟨rfl, by rw [mapTySt_eq m t, hm]; rfl, rfl⟩

/-- The operator tokens `map_operator` accepts (generator.rs lines
1122-1143). -/
def supported_operators : List Token :=
  [.plus, .minus, .multiply, .divide, .equal, .notEqual, .lessThan,
   .greaterThan, .lessEqual, .greaterEqual, .and, .or, .not, .assign]

theorem map_operator_unsupported (t : Token)
    (ht : t ∉ supported_operators) :
    map_operator t =
      .error (.generationError ("Unsupported operator: " ++ tokenDebug t)) := by
  cases t <;> first
    | rfl
    | exact absurd (by simp [supported_operators]) ht

/-- C4: the operator table.  The first conjunct is the fixed 1:1 table of
the fourteen supported tokens; the second, that every other token yields
the `Unsupported operator` generation error; the third, that a binary
expression whose operands generate fine but whose operator is unsupported
fails with that same error (never a silent default). -/
theorem map_operator_coverage :
    (map_operator .plus = .ok "+" ∧ map_operator .minus = .ok "-" ∧
     map_operator .multiply = .ok "*" ∧ map_operator .divide = .ok "/" ∧
     map_operator .equal = .ok "==" ∧ map_operator .notEqual = .ok "!=" ∧
     map_operator .lessThan = .ok "<" ∧ map_operator .greaterThan = .ok ">" ∧
     map_operator .lessEqual = .ok "<=" ∧
     map_operator .greaterEqual = .ok ">=" ∧
     map_operator .and = .ok "&&" ∧ map_operator .or = .ok "||" ∧
     map_operator .not = .ok "!" ∧ map_operator .assign = .ok "=") ∧
    (∀ t, t ∉ supported_operators →
      map_operator t =
        .error (.generationError ("Unsupported operator: " ++ tokenDebug t))) ∧
    (∀ left op right ls rs, op ∉ supported_operators →
      generate_expression left = .ok ls →
      generate_expression right = .ok rs →
      generate_binary_expression left op right =
        .error (.generationError ("Unsupported operator: " ++ tokenDebug op))) := by
  refine ⟨⟨rfl, rfl, rfl, rfl, rfl, rfl, rfl, rfl, rfl, rfl, rfl, rfl, rfl,
    rfl⟩, map_operator_unsupported, ?_⟩
  intro left op right ls rs hop hl hr
  rw [generate_binary_expression, hl, hr]
  simp only [ebind_okl]
  rw [map_operator_unsupported op hop]
  rfl

/-- Substring occurrence over character lists (used to state textual
absence in counterexamples in a kernel-computable form). -/
def listPrefix : List Char → List Char → Bool
  | [], _ => true
  | _ :: _, [] => false
  | a :: as, b :: bs => if a = b then listPrefix as bs else false

def listInfix (pat : List Char) : List Char → Bool
  | [] => listPrefix pat []
  | b :: rest => if listPrefix pat (b :: rest) then true else listInfix pat rest

/-- C8 counterexample: a purely numeric enum loses its discriminants —
both members carry numeric initializers, yet the conventional enum comes
out with bare variants and the digits appear nowhere in it. -/
theorem enum_numeric_discriminant_dropped :
    generate_enum_declaration "Direction"
      [EnumMember.mk "Up" (some (.literal (.number "1"))),
       EnumMember.mk "Down" (some (.literal (.number "2")))] =
      .ok ("#[derive(Debug, Clone, Serialize, Deserialize)]\npub enum Direction \x7b\n    Up,\n    Down\n\x7d") ∧
    listInfix "1".toList "#[derive(Debug, Clone, Serialize, Deserialize)]\npub enum Direction \x7b\n    Up,\n    Down\n\x7d".toList = false ∧
    listInfix "2".toList "#[derive(Debug, Clone, Serialize, Deserialize)]\npub enum Direction \x7b\n    Up,\n    Down\n\x7d".toList = false := by
  refine ⟨rfl, by decide, by decide⟩

/-- C8 amended: in the conventional branch (no string-valued member) the
member initializers are ignored entirely — every member lowers to a bare
variant, so numeric initializers are dropped rather than preserved as
discriminants. -/
theorem enum_conventional_ignores_initializers (name : String)
    (members : List EnumMember)
    (h : enum_has_string_values members = false) :
    generate_enum_declaration name members = .ok (
      "#[derive(Debug, Clone, Serialize, Deserialize)]\npub enum " ++ name ++
      " \x7b\n" ++ String.intercalate ",\n" (members.map (fun mem =>
        match mem with | .mk nm _ => "    " ++ nm)) ++ "\n\x7d") := by
  rw [generate_enum_declaration, if_neg (by simp [h])]
  rfl

theorem enum_conventional_ignores_initializers_witness :
    generate_enum_declaration "Direction"
      [EnumMember.mk "Up" (some (.literal (.number "1")))] = .ok (
      "#[derive(Debug, Clone, Serialize, Deserialize)]\npub enum " ++
      "Direction" ++ " \x7b\n" ++ String.intercalate ",\n"
        ([EnumMember.mk "Up" (some (.literal (.number "1")))].map (fun mem =>
          match mem with | .mk nm _ => "    " ++ nm)) ++ "\n\x7d") :=
  enum_conventional_ignores_initializers "Direction"
    [EnumMember.mk "Up" (some (.literal (.number "1")))] rfl

/-- The `Expression` variants `generate_expression` sends to its final
TODO arms (generator.rs lines 941-945 region). -/
def expr_unhandled : Expression → Bool
  | .logical _ _ _ | .conditional _ _ _ | .parenthesized _ | .yieldExpr _ _
  | .awaitExpr _ | .typeAssertion _ _ | .asExpression _ _ | .nonNull _
  | .optionalExpr _ _ | .taggedTemplate _ _ _ => true
  | _ => false

/-- The `Statement` variants the top-level dispatch of
`CodeGenerator::generate` (lines 122-126) does not handle. -/
def top_statement_unhandled : Statement → Bool
  | .declareStatement _ | .blockStatement _ | .ifStatement _ _ _
  | .whileStatement _ _ | .forStatement _ _ _ _ | .returnStatement _
  | .breakStatement _ | .continueStatement _ | .throwStatement _
  | .tryStatement _ _ _ | .switchStatement _ _ => true
  | _ => false

theorem emptyBuckets_append (b : GenBuckets) :
    emptyBuckets.append b = b := by
  cases b
  simp [GenBuckets.append, emptyBuckets]

/-- C9 counterexample: a top-level `return` statement (parsed fine) is
silently dropped by `CodeGenerator::generate` — the output is literally
the output of the empty program, and contains no `unimplemented`/`TODO`
placeholder. -/
theorem generate_drops_unhandled_statement :
    generate false ⟨[Statement.returnStatement
      (some (.literal (.number "1")))]⟩ = generate false ⟨[]⟩ ∧
    generate false ⟨[Statement.returnStatement
      (some (.literal (.number "1")))]⟩ =
      .ok "use std::collections::HashMap;\n\n\n\n\n\n" ∧
    listInfix "unimplemented".toList
      "use std::collections::HashMap;\n\n\n\n\n\n".toList = false ∧
    listInfix "TODO".toList
      "use std::collections::HashMap;\n\n\n\n\n\n".toList = false := by
  refine ⟨rfl, rfl, by decide, by decide⟩

/-- C9 amended: the placeholder guarantee holds for expressions (every
unhandled expression variant lowers to the `// TODO: Implement
expression` placeholder), but not at the top level: every statement
variant outside `CodeGenerator::generate`'s dispatch contributes nothing
to any bucket, so the statement is dropped from the output with no
placeholder. -/
theorem unhandled_placeholders_scope (m : TypeMapper) (e : Expression)
    (st : Statement) (rest : List Statement) :
    (expr_unhandled e = true →
      generate_expression e = .ok "// TODO: Implement expression") ∧
    (top_statement_unhandled st = true →
      generate_statement_buckets m st = .ok emptyBuckets ∧
      generate_buckets m (st :: rest) = generate_buckets m rest) := by
  constructor
  · intro he
    cases e <;> (try simp [expr_unhandled] at he) <;>
      simp [generate_expression]
  · intro hs
    have h1 : generate_statement_buckets m st = .ok emptyBuckets := by
      cases st <;> first
        | rfl
        | (simp [top_statement_unhandled] at hs)
    refine ⟨h1, ?_⟩
    rw [generate_buckets, h1]
    simp only [ebind_okl]
    rcases hr : generate_buckets m rest with e2 | bs
    · rfl
    · simp only [ebind_okl, emptyBuckets_append]

/-- C10: the stuck-loop error is unreachable for a non-empty token list —
the iteration counter exits strictly below `2 * tokens.len()`, so `parse`
takes the normal result branches; the empty token list is the one input
whose `parse` does return that error (its loop bound is zero). -/
theorem parse_stuck_error_unreachable (tokens : List Token)
    (step : Nat → Except CompilerError (Option Statement) × Nat)
    (Hstep : ∀ q, q < tokens.length →
      q ≤ (step q).2 ∧ (step q).2 ≤ tokens.length) :
    (tokens ≠ [] →
      (parseFinal tokens step).iterations < tokens.length * 2 ∧
      parse tokens step =
        (if ¬(parseFinal tokens step).statements.isEmpty then
          .ok ⟨(parseFinal tokens step).statements⟩
        else match (parseFinal tokens step).errors with
          | e :: _ => .error e
          | [] => .ok ⟨(parseFinal tokens step).statements⟩)) ∧
    parse [] step = .error (.parseError 0 1 "Parser stuck in infinite loop") := by
  constructor
  · intro hne
    have hlen1 : 1 ≤ tokens.length := by
      cases tokens with
      | nil => exact absurd rfl hne
      | cons a l => simp
    have hinv := parseLoopAux_position tokens step Hstep
      (tokens.length * 2) ⟨0, 0, [], []⟩ (by simp)
    rw [show parseLoopAux tokens step (tokens.length * 2) ⟨0, 0, [], []⟩ =
      parseFinal tokens step from rfl] at hinv
    dsimp only at hinv
    constructor
    · omega
    · simp only [parse]
      rw [if_neg (by omega)]
  · rfl

/-- The `parse_statement` stand-in of the C10 witness: parses nothing and
stays in place. -/
def stepW2 : Nat → Except CompilerError (Option Statement) × Nat :=
  fun p => (.ok none, p)

theorem parse_stuck_error_unreachable_witness :
    parse [] stepW2 = .error (.parseError 0 1 "Parser stuck in infinite loop") :=
  (parse_stuck_error_unreachable [Token.eof] stepW2
    (fun q hq => ⟨le_refl q, by simp only [stepW2]; omega⟩)).2

theorem ebind_errl {α β : Type} (e : CompilerError)
    (g : α → Except CompilerError β) :
    ((Except.error e : Except CompilerError α) >>= g) = .error e := rfl

theorem enum_has_string_values_iff (members : List EnumMember) :
    enum_has_string_values members = true ↔
      ∃ nm s, EnumMember.mk nm (some (.literal (.string s))) ∈ members := by
  induction members with
  | nil => simp [enum_has_string_values]
  | cons mem rest ih =>
    simp only [enum_has_string_values, List.any_cons] at ih ⊢
    rw [Bool.or_eq_true]
    constructor
    · rintro (hf | hrest)
      · rcases mem with ⟨nm, init⟩
        rcases init with _ | e
        · exact absurd hf (by simp)
        · cases e
          case literal l =>
            cases l
            case string s => exact ⟨nm, s, by simp⟩
            all_goals exact absurd hf (by simp)
          all_goals exact absurd hf (by simp)
      · obtain ⟨nm, s, hmem⟩ := ih.1 hrest
        exact ⟨nm, s, List.mem_cons_of_mem _ hmem⟩
    · rintro ⟨nm, s, hmem⟩
      rcases List.mem_cons.1 hmem with heq | hmem2
      · left
        rw [← heq]
      · right
        exact ih.2 ⟨nm, s, hmem2⟩

theorem enum_string_loop_variants (members : List EnumMember) :
    (enum_string_loop members).2 = members.map (fun mem =>
      match mem with | .mk nm _ => "    " ++ nm) := by
  induction members with
  | nil => rfl
  | cons mem rest ih =>
    rcases mem with ⟨nm, init⟩
    rw [enum_string_loop.eq_def]
    dsimp only
    rcases hrec : enum_string_loop rest with ⟨cds, evs⟩
    rw [hrec] at ih
    dsimp only at ih
    rcases init with _ | e
    · simp [ih]
    · cases e
      case literal l => cases l <;> simp [ih]
      all_goals simp [ih]

/-- What the string-valued enum branch pushes as a named constant for one
member (the two literal-initializer arms of generator.rs lines 620-640);
`none` for members that get no constant. -/
def enum_const_entry : EnumMember → Option String
  | .mk nm (some (.literal (.string s))) =>
    some ("pub const " ++ nm ++ ": &str = \"" ++ s ++ "\";")
  | .mk nm (some (.literal (.number n))) =>
    some ("pub const " ++ nm ++ ": f64 = " ++ n ++ ";")
  | _ => none

theorem enum_string_loop_consts (members : List EnumMember) :
    (enum_string_loop members).1 = members.filterMap enum_const_entry := by
  induction members with
  | nil => rfl
  | cons mem rest ih =>
    rcases mem with ⟨nm, init⟩
    rw [enum_string_loop.eq_def]
    dsimp only
    rcases hrec : enum_string_loop rest with ⟨cds, evs⟩
    rw [hrec] at ih
    dsimp only at ih
    rcases init with _ | e
    · simp [enum_const_entry, ih]
    · cases e
      case literal l => cases l <;> simp [enum_const_entry, ih]
      all_goals simp [enum_const_entry, ih]

/-- C5: enum kind selection.  The flag `has_string_values` is true exactly
when some member carries a string-literal initializer; when it is true the
enum comes out as the constants-plus-bare-enum form, otherwise as the
single conventional enum; the bare-variant list has one `    Name` entry
per member in order, and the constant list is exactly the constants of the
string- and number-initialized members in order. -/
theorem enum_kind_selection (name : String) (members : List EnumMember) :
    (enum_has_string_values members = true ↔
      ∃ nm s, EnumMember.mk nm (some (.literal (.string s))) ∈ members) ∧
    (enum_has_string_values members = true →
      generate_enum_declaration name members = .ok (
        (if (enum_string_loop members).1.isEmpty then ""
         else String.intercalate "\n" (enum_string_loop members).1 ++ "\n") ++
        (if (enum_string_loop members).2.isEmpty then ""
         else "#[derive(Debug, Clone, Serialize, Deserialize)]\npub enum " ++
           name ++ " \x7b\n" ++
           String.intercalate ",\n" (enum_string_loop members).2 ++
           "\n\x7d"))) ∧
    (enum_has_string_values members = false →
      generate_enum_declaration name members = .ok (
        "#[derive(Debug, Clone, Serialize, Deserialize)]\npub enum " ++
        name ++ " \x7b\n" ++
        String.intercalate ",\n" (conventional_enum_variants members) ++
        "\n\x7d")) ∧
    (enum_string_loop members).2 = members.map (fun mem =>
      match mem with | .mk nm _ => "    " ++ nm) ∧
    (enum_string_loop members).1 = members.filterMap enum_const_entry := by
  refine ⟨enum_has_string_values_iff members, ?_, ?_,
    enum_string_loop_variants members, enum_string_loop_consts members⟩
  · intro h
    rw [generate_enum_declaration, if_pos h]
  · intro h
    rw [generate_enum_declaration, if_neg (by simp [h])]

/-- Whether a class member is a `Property` (the field-collecting arm of
`generate_class_declaration`). -/
def is_property_member : ClassMember → Bool
  | .property _ _ _ _ _ => true
  | _ => false

/-- Whether a class member is a `Constructor`. -/
def is_ctor_member : ClassMember → Bool
  | .ctor _ _ _ _ => true
  | _ => false

/-- The field string the `Property` arm of `generate_class_declaration`'s
member loop produces for one property member. -/
def property_field (m : TypeMapper) : ClassMember → Except CompilerError String
  | .property name optional ptype init _ => do
    let field_type ← (match ptype with
      | some t => mapTy m t
      | none => .ok "Box<dyn Any>")
    let field_def := if optional then
        "    pub " ++ name ++ ": Option<" ++ field_type ++ ">"
      else "    pub " ++ name ++ ": " ++ field_type
    match init with
    | some initializer => do
      let init_value ← generate_expression initializer
      .ok ("    pub " ++ name ++ ": " ++ field_type ++ " = " ++ init_value)
    | none => .ok field_def
  | _ => .error (.internalError "not a property member")

theorem class_member_loop_spec (m : TypeMapper) :
    ∀ (body : List ClassMember) (fields methods : List String)
      (hasCtor : Bool),
      class_member_loop m body = .ok (fields, methods, hasCtor) →
      List.Forall₂ (fun mem f => property_field m mem = .ok f)
        (body.filter is_property_member) fields ∧
      hasCtor = body.any is_ctor_member := by
  intro body
  induction body with
  | nil =>
    intro fields methods hasCtor h
    rw [class_member_loop] at h
    simp only [Except.ok.injEq, Prod.mk.injEq] at h
    obtain ⟨h1, h2, h3⟩ := h
    subst h1
    subst h3
    exact ⟨by simp, rfl⟩
  | cons mem rest ih =>
    intro fields methods hasCtor h
    rw [class_member_loop.eq_def] at h
    dsimp only at h
    rcases hrec : class_member_loop m rest with e | ⟨f0, ms0, c0⟩
    · rw [hrec, ebind_errl] at h
      exact Except.noConfusion h
    · rw [hrec, ebind_okl] at h
      dsimp only at h
      obtain ⟨ihf, ihc⟩ := ih f0 ms0 c0 hrec
      cases mem
      case property nm opt pt init mods =>
        rcases pt with _ | t <;> rcases init with _ | ini
        · (try dsimp only at h)
          simp only [ebind_okl] at h
          simp only [Except.ok.injEq, Prod.mk.injEq] at h
          obtain ⟨h1, h2, h3⟩ := h
          subst h1; subst h2; subst h3
          refine ⟨?_, by simp [is_ctor_member, ihc]⟩
          rw [List.filter_cons, if_pos (by rfl)]
          exact List.Forall₂.cons (by simp [property_field, ebind_okl]) ihf
        · (try dsimp only at h)
          simp only [ebind_okl] at h
          rcases hge : generate_expression ini with e3 | iv
          · rw [hge] at h
            simp only [ebind_errl] at h
            exact Except.noConfusion h
          · rw [hge] at h
            simp only [ebind_okl] at h
            simp only [Except.ok.injEq, Prod.mk.injEq] at h
            obtain ⟨h1, h2, h3⟩ := h
            subst h1; subst h2; subst h3
            refine ⟨?_, by simp [is_ctor_member, ihc]⟩
            rw [List.filter_cons, if_pos (by rfl)]
            exact List.Forall₂.cons
              (by simp [property_field, hge, ebind_okl]) ihf
        · (try dsimp only at h)
          rcases hmt : mapTy m t with e2 | ft
          · rw [hmt] at h
            simp only [ebind_errl] at h
            exact Except.noConfusion h
          · rw [hmt] at h
            simp only [ebind_okl] at h
            simp only [Except.ok.injEq, Prod.mk.injEq] at h
            obtain ⟨h1, h2, h3⟩ := h
            subst h1; subst h2; subst h3
            refine ⟨?_, by simp [is_ctor_member, ihc]⟩
            rw [List.filter_cons, if_pos (by rfl)]
            exact List.Forall₂.cons
              (by simp [property_field, hmt, ebind_okl]) ihf
        · (try dsimp only at h)
          rcases hmt : mapTy m t with e2 | ft
          · rw [hmt] at h
            simp only [ebind_errl] at h
            exact Except.noConfusion h
          · rw [hmt] at h
            simp only [ebind_okl] at h
            rcases hge : generate_expression ini with e3 | iv
            · rw [hge] at h
              simp only [ebind_errl] at h
              exact Except.noConfusion h
            · rw [hge] at h
              simp only [ebind_okl] at h
              simp only [Except.ok.injEq, Prod.mk.injEq] at h
              obtain ⟨h1, h2, h3⟩ := h
              subst h1; subst h2; subst h3
              refine ⟨?_, by simp [is_ctor_member, ihc]⟩
              rw [List.filter_cons, if_pos (by rfl)]
              exact List.Forall₂.cons
                (by simp [property_field, hmt, hge, ebind_okl]) ihf
      case method nm opt tps params rt mbody mods decs =>
        (try dsimp only at h)
        rcases hmc : generate_method_declaration m nm params rt mbody decs
          with e2 | mc
        · rw [hmc] at h
          simp only [ebind_errl] at h
          exact Except.noConfusion h
        · rw [hmc] at h
          simp only [ebind_okl] at h
          simp only [Except.ok.injEq, Prod.mk.injEq] at h
          obtain ⟨h1, h2, h3⟩ := h
          subst h1; subst h2; subst h3
          refine ⟨?_, by simp [is_ctor_member, ihc]⟩
          rw [List.filter_cons, if_neg (by simp [is_property_member])]
          exact ihf
      case ctor params cbody mods decs =>
        (try dsimp only at h)
        rcases hcc : generate_constructor_declaration m params cbody decs
          with e2 | cc
        · rw [hcc] at h
          simp only [ebind_errl] at h
          exact Except.noConfusion h
        · rw [hcc] at h
          simp only [ebind_okl] at h
          simp only [Except.ok.injEq, Prod.mk.injEq] at h
          obtain ⟨h1, h2, h3⟩ := h
          subst h1; subst h2; subst h3
          refine ⟨?_, by simp [is_ctor_member]⟩
          rw [List.filter_cons, if_neg (by simp [is_property_member])]
          exact ihf
      case getter nm gt gbody mods decs =>
        (try dsimp only at h)
        rcases hgc : generate_getter_declaration m nm gt gbody decs
          with e2 | gc
        · rw [hgc] at h
          simp only [ebind_errl] at h
          exact Except.noConfusion h
        · rw [hgc] at h
          simp only [ebind_okl] at h
          simp only [Except.ok.injEq, Prod.mk.injEq] at h
          obtain ⟨h1, h2, h3⟩ := h
          subst h1; subst h2; subst h3
          refine ⟨?_, by simp [is_ctor_member, ihc]⟩
          rw [List.filter_cons, if_neg (by simp [is_property_member])]
          exact ihf
      case setter nm sp sbody mods decs =>
        (try dsimp only at h)
        rcases hsc : generate_setter_declaration m nm sp sbody decs
          with e2 | sc
        · rw [hsc] at h
          simp only [ebind_errl] at h
          exact Except.noConfusion h
        · rw [hsc] at h
          simp only [ebind_okl] at h
          simp only [Except.ok.injEq, Prod.mk.injEq] at h
          obtain ⟨h1, h2, h3⟩ := h
          subst h1; subst h2; subst h3
          refine ⟨?_, by simp [is_ctor_member, ihc]⟩
          rw [List.filter_cons, if_neg (by simp [is_property_member])]
          exact ihf
      case index p t r =>
        (try dsimp only at h)
        simp only [Except.ok.injEq, Prod.mk.injEq] at h
        obtain ⟨h1, h2, h3⟩ := h
        subst h1; subst h2; subst h3
        refine ⟨?_, by simp [is_ctor_member, ihc]⟩
        rw [List.filter_cons, if_neg (by simp [is_property_member])]
        exact ihf
      case decorator d =>
        (try dsimp only at h)
        simp only [Except.ok.injEq, Prod.mk.injEq] at h
        obtain ⟨h1, h2, h3⟩ := h
        subst h1; subst h2; subst h3
        refine ⟨?_, by simp [is_ctor_member, ihc]⟩
        rw [List.filter_cons, if_neg (by simp [is_property_member])]
        exact ihf

/-- C6: the synthesized default constructor.  When the member loop sees no
`Constructor` member, the collected `fields` are exactly the property
members' field strings in declaration order (`Forall₂` pairs each property
with its field string, so there are as many fields as properties), and the
generated impl block ends with the synthesized zero-argument constructor
whose initializer list has exactly one entry per field. -/
theorem class_default_ctor (m : TypeMapper) (name : String)
    (tps : List TypeParameter) (body : List ClassMember)
    (fields methods : List String) (hasCtor : Bool)
    (h : class_member_loop m body = .ok (fields, methods, hasCtor))
    (hno : body.any is_ctor_member = false) :
    hasCtor = false ∧
    List.Forall₂ (fun mem f => property_field m mem = .ok f)
      (body.filter is_property_member) fields ∧
    fields.length = (body.filter is_property_member).length ∧
    generate_class_declaration m name tps body = .ok (
      "#[derive(Debug, Clone, Serialize, Deserialize)]\npub struct " ++
        name ++ generic_params_str tps ++ " \x7b\n" ++
        String.intercalate ",\n" fields ++ "\n\x7d",
      "impl " ++ generic_params_str tps ++ name ++ " \x7b\n" ++
        String.intercalate "\n\n"
          (methods ++ [default_constructor_code fields]) ++ "\n\x7d") ∧
    (fields.map default_ctor_entry).length =
      (body.filter is_property_member).length := by
  obtain ⟨hfa, hctor⟩ := class_member_loop_spec m body fields methods hasCtor h
  have hc : hasCtor = false := by rw [hctor, hno]
  have hlen := List.Forall₂.length_eq hfa
  refine ⟨hc, hfa, hlen.symm, ?_, ?_⟩
  · rw [generate_class_declaration, h, ebind_okl]
    dsimp only
    rw [hc]
    simp
  · rw [List.length_map, ← hlen]

theorem class_default_ctor_witness :
    (["    pub x: Box<dyn Any>"] : List String).length =
      ([ClassMember.property "x" false none none []].filter
        is_property_member).length :=
  (class_default_ctor (TypeMapper.new true) "Point" []
    [ClassMember.property "x" false none none []]
    ["    pub x: Box<dyn Any>"] [] false rfl rfl).2.2.1

/-- C1: tolerant parsing returns partial results.  When the loop exits
with at least one collected statement, `parse` returns `Ok` with exactly
the collected statement list (never an error); the second and third
conjuncts say how the loop collects: a successful `parse_statement`
appends exactly its statement (recording no error), a failing one appends
exactly its error and no statement — so the program holds the
successfully parsed statements in order and failed ones are omitted. -/
theorem parser_partial_results (tokens : List Token)
    (step : Nat → Except CompilerError (Option Statement) × Nat)
    (Hstep : ∀ q, q < tokens.length →
      q ≤ (step q).2 ∧ (step q).2 ≤ tokens.length)
    (hne : (parseFinal tokens step).statements ≠ []) :
    parse tokens step = .ok ⟨(parseFinal tokens step).statements⟩ ∧
    (∀ s st p, step s.position = (.ok (some st), p) →
      (bodyOut (parseBody tokens step s)).statements = s.statements ++ [st] ∧
      (bodyOut (parseBody tokens step s)).errors = s.errors) ∧
    (∀ s e p, step s.position = (.error e, p) →
      (bodyOut (parseBody tokens step s)).statements = s.statements ∧
      (bodyOut (parseBody tokens step s)).errors = s.errors ++ [e]) := by
  refine ⟨?_, fun s st p hs => parseBody_statements_ok tokens step s st p hs,
    fun s e p hs => parseBody_statements_err tokens step s e p hs⟩
  have hlen : tokens ≠ [] := by
    intro h0
    apply hne
    subst h0
    rfl
  have hlen1 : 1 ≤ tokens.length := by
    cases tokens with
    | nil => exact absurd rfl hlen
    | cons a l => simp
  have hinv := parseLoopAux_position tokens step Hstep
    (tokens.length * 2) ⟨0, 0, [], []⟩ (by simp)
  rw [show parseLoopAux tokens step (tokens.length * 2) ⟨0, 0, [], []⟩ =
    parseFinal tokens step from rfl] at hinv
  dsimp only at hinv
  simp only [parse]
  rw [if_neg (by omega)]
  rw [if_pos (by simpa using hne)]

/-- The `parse_statement` stand-in of the C1 witness: always returns one
`return;` statement and leaves the cursor at the end of the list. -/
def stepW1 : Nat → Except CompilerError (Option Statement) × Nat :=
  fun _ => (.ok (some (Statement.returnStatement none)), 2)

theorem parser_partial_results_witness :
    parse [Token.keyword Keyword.kReturn, Token.eof] stepW1 =
      .ok ⟨[Statement.returnStatement none]⟩ :=
  (parser_partial_results [Token.keyword Keyword.kReturn, Token.eof] stepW1
    (fun q hq => by simp [stepW1] at hq ⊢; omega)
    (fun hF => List.noConfusion hF)).1

/-- C3: every successful tokenization — the inputs with no unrecognized
character and no unterminated string or template literal are exactly
those on which `tokenize` does not return an error — yields a token list
with exactly one end-of-stream marker, sitting in last position. -/
theorem tokenize_single_eof (input : List Char) (ts : List Token)
    (h : tokenize input = .ok ts) :
    ts.count Token.eof = 1 ∧ ts.getLast? = some Token.eof :=
  tokenizeAux_eof input (byteLen input) lexerNew (by simp [lexerNew]) ts h

theorem tokenize_single_eof_witness :
    tokenize ['a'] = .ok [Token.identifier "a", Token.eof] ∧
    ([Token.identifier "a", Token.eof].count Token.eof = 1 ∧
     [Token.identifier "a", Token.eof].getLast? = some Token.eof) := by
  have hws : skipWhitespace ['a'] ⟨0, 1, 1⟩ = ⟨0, 1, 1⟩ := by
    rw [skipWhitespace]
    simp +decide [byteLen, charSize, currentChar, peekChar, rustIsWhitespace]
  have hloop : parseIdentLoop ['a'] "" ⟨0, 1, 1⟩ = ("a", ⟨1, 1, 2⟩) := by
    rw [parseIdentLoop]
    simp +decide [byteLen, charSize, currentChar, isIdentChar, advanceLex]
    rw [parseIdentLoop]
    simp +decide [byteLen, charSize]
  have hident : parseIdentifierOrKeyword ['a'] ⟨0, 1, 1⟩ =
      .ok (some (Token.identifier "a"), ⟨1, 1, 2⟩) := by
    rw [parseIdentifierOrKeyword, hloop]
    simp +decide [parseKeywordStr]
  have harms : nextTokenArms ['a'] ⟨0, 1, 1⟩ =
      .ok (some (Token.identifier "a"), ⟨1, 1, 2⟩) := by
    rw [nextTokenArms]
    simp +decide [currentChar, peekChar, isIdentStartChar]
    exact hident
  have hnext : nextToken ['a'] ⟨0, 1, 1⟩ =
      .ok (some (Token.identifier "a"), ⟨1, 1, 2⟩) := by
    rw [nextToken, hws, harms]
    simp +decide [byteLen, charSize, currentChar, isIdentStartChar]
  have hrec2 : tokenizeAux ['a'] ⟨1, 1, 2⟩ = .ok [Token.eof] := by
    rw [tokenizeAux]
    simp +decide [byteLen, charSize]
  have hev : tokenize ['a'] = .ok [Token.identifier "a", Token.eof] := by
    show tokenizeAux ['a'] ⟨0, 1, 1⟩ = _
    rw [tokenizeAux]
    rw [if_pos (by simp +decide [byteLen, charSize])]
    split
    · rename_i e heq
      rw [hnext] at heq
      exact Except.noConfusion heq
    · rename_i t s2 heq
      rw [hnext] at heq
      simp only [Except.ok.injEq, Prod.mk.injEq, Option.some.injEq] at heq
      obtain ⟨h1, h2⟩ := heq
      subst h1
      subst h2
      rw [hrec2]
      rfl
    · rename_i s2 heq
      rw [hnext] at heq
      exact absurd heq (by simp)
  exact ⟨hev, tokenize_single_eof ['a'] [Token.identifier "a", Token.eof] hev⟩
